import Mathlib

/-!
Verification development for the `teleios-growth-tool` repository
(`src/utils/excel_processor.py`, `src/utils/debug_logger.py`, `src/app.py`).

The Python code is shallowly embedded: spreadsheet cells become an explicit
`CellValue` type (distinguishing the absent value `None`, strings — which is
also how formulas are stored — and numbers, modelled as exact rationals),
sheets become lists of row structures (list index `i` is spreadsheet row
`i + 2`, row 1 being the header), and code that can raise exceptions returns
`Except`/`Option`.  Python's `round` on floats is modelled as exact rational
rounding (ties rounded half-up; Python's banker's tie-breaking differs only on
exact ties, which no claim here depends on).
-/

/-- The value stored in a spreadsheet cell as seen through openpyxl:
`none` models Python `None` (an empty cell), `str` models text (openpyxl
also stores formulas as text beginning with `=`), `num` models a numeric
cell value as an exact rational. -/
inductive CellValue where
  | none : CellValue
  | str : String → CellValue
  | num : ℚ → CellValue
deriving DecidableEq, Repr

/-- Python truthiness of a cell value: `None`, `''` and `0` are falsy. -/
def CellValue.truthy : CellValue → Bool
  | CellValue.none => false
  | CellValue.str s => s ≠ ""
  | CellValue.num q => q ≠ 0

/-- The extractor's stop test (excel_processor.py lines 515-516):
`value is None or value == ''`.  A numeric value never equals `''`. -/
def CellValue.isBlank : CellValue → Bool
  | CellValue.none => true
  | CellValue.str s => s = ""
  | CellValue.num _ => false

/-- `isinstance(value, (int, float))` (excel_processor.py lines 523-524). -/
def CellValue.isNum : CellValue → Bool
  | CellValue.num _ => true
  | _ => false

/-- The numeric content of a cell known to be numeric (0 otherwise). -/
def CellValue.asNum : CellValue → ℚ
  | CellValue.num q => q
  | _ => 0

/-- Python `round(q, n)` on an exact rational: scale by `10^n`, round to the
nearest integer (ties half-up in this model), scale back. -/
def pyRound (q : ℚ) (n : ℕ) : ℚ :=
  (⌊q * 10 ^ n + 1 / 2⌋ : ℚ) / 10 ^ n

/-- Python `int(round(q))`: round to the nearest integer. -/
def pyRoundInt (q : ℚ) : ℚ :=
  (⌊q + 1 / 2⌋ : ℚ)

/-- The percentage normalization applied to hospice penetration and % GIP days
(excel_processor.py lines 529-530 and 534-535): values greater than 1 are
treated as percentage-points and divided by 100. -/
def normalizePct (q : ℚ) : ℚ :=
  if 1 < q then q / 100 else q

/-- `f(cell.value) if cell.value else 0` with `f = round(·, n)`: a falsy value
coerces to 0; a truthy numeric value is rounded; a truthy non-numeric value
makes Python's `round` raise `TypeError`. -/
def coerceRound (v : CellValue) (n : ℕ) : Except String ℚ :=
  if v.truthy then
    match v with
    | CellValue.num q => Except.ok (pyRound q n)
    | _ => Except.error "TypeError"
  else Except.ok 0

/-- `int(round(cell.value)) if cell.value else 0`, with the same exception
behaviour as `coerceRound`. -/
def coerceInt (v : CellValue) : Except String ℚ :=
  if v.truthy then
    match v with
    | CellValue.num q => Except.ok (pyRoundInt q)
    | _ => Except.error "TypeError"
  else Except.ok 0

/-- The two-step percentage handling of excel_processor.py lines 527-535 and
549-550: substitute 0 for a falsy value, normalize, then `round(·, 4)`.
The comparison `value > 1` raises `TypeError` on a truthy non-numeric value. -/
def coercePct (v : CellValue) : Except String ℚ :=
  if v.truthy then
    match v with
    | CellValue.num q => Except.ok (pyRound (normalizePct q) 4)
    | _ => Except.error "TypeError"
  else Except.ok (pyRound (normalizePct 0) 4)

/-- One row of the County Trend sheet, restricted to the columns the extractor
reads (excel_processor.py lines 496-508): B, C, E, G, H, I, J, K, L, M, N, O, P. -/
structure TrendRow where
  year : CellValue
  medicare : CellValue
  residentDeaths : CellValue
  hospiceDeaths : CellValue
  penetration : CellValue
  patientsServed : CellValue
  daysPerPatient : CellValue
  patientDays : CellValue
  avgDailyCensus : CellValue
  gipDaysPct : CellValue
  avgGipCensus : CellValue
  gipPatients : CellValue
  paymentsPerPatient : CellValue
deriving DecidableEq, Repr

/-- The County Trend sheet: a cell grid indexed by row number together with
openpyxl's `max_row`. -/
structure TrendSheet where
  cells : ℕ → TrendRow
  maxRow : ℕ

/-- The rows the extraction loop visits: rows 10 through `max_row`
(excel_processor.py line 492). -/
def trendRows (s : TrendSheet) : List TrendRow :=
  (List.range' 10 (s.maxRow + 1 - 10)).map s.cells

/-- The stop condition of excel_processor.py lines 515-516: either anchor cell
(year, column B, or medicare enrollment, column C) is `None` or `''`. -/
def anchorBlank (r : TrendRow) : Bool :=
  r.year.isBlank || r.medicare.isBlank

/-- The record condition of excel_processor.py lines 523-524: both anchor
cells hold `int`/`float` values. -/
def anchorNum (r : TrendRow) : Bool :=
  r.year.isNum && r.medicare.isNum

/-- One extracted record (excel_processor.py lines 537-557). -/
structure SourceRecord where
  county : String
  state : String
  year : ℚ
  medicare_enrollment : ℚ
  resident_deaths : ℚ
  hospice_deaths : ℚ
  patients_served : ℚ
  patient_days : ℚ
  gip_patients : ℚ
  hospice_penetration : ℚ
  gip_days_percent : ℚ
  days_per_patient : ℚ
  avg_daily_census : ℚ
  payments_per_patient : ℚ
  avg_gip_census : ℚ
deriving DecidableEq, Repr

/-- Building the `row_data` dict of excel_processor.py lines 527-557 for a row
whose anchors passed the numeric check.  The percentage values are computed
first (lines 527-535), then the remaining fields; any `TypeError` aborts. -/
def buildRecord (county : String) (r : TrendRow) : Except String SourceRecord := do
  let pen ← coercePct r.penetration
  let gip ← coercePct r.gipDaysPct
  let medicare ← coerceInt r.medicare
  let resident ← coerceRound r.residentDeaths 1
  let hospice ← coerceInt r.hospiceDeaths
  let served ← coerceInt r.patientsServed
  let pdays ← coerceInt r.patientDays
  let gipPat ← coerceInt r.gipPatients
  let dpp ← coerceRound r.daysPerPatient 2
  let adc ← coerceRound r.avgDailyCensus 2
  let ppp ← coerceRound r.paymentsPerPatient 2
  let agc ← coerceRound r.avgGipCensus 1
  Except.ok
    { county := county
      state := "NC"
      year := r.year.asNum
      medicare_enrollment := medicare
      resident_deaths := resident
      hospice_deaths := hospice
      patients_served := served
      patient_days := pdays
      gip_patients := gipPat
      hospice_penetration := pen
      gip_days_percent := gip
      days_per_patient := dpp
      avg_daily_census := adc
      payments_per_patient := ppp
      avg_gip_census := agc }

/-- The row loop of excel_processor.py lines 492-563: stop at the first row
with a blank anchor, extract rows with numeric anchors (propagating any
exception), and skip rows that are neither. -/
def extractRows (county : String) : List TrendRow → Except String (List SourceRecord)
  | [] => Except.ok []
  | r :: rest =>
    if anchorBlank r then Except.ok []
    else if anchorNum r then
      match buildRecord county r with
      | Except.error e => Except.error e
      | Except.ok rec =>
        match extractRows county rest with
        | Except.error e => Except.error e
        | Except.ok others => Except.ok (rec :: others)
    else extractRows county rest

/-- Collapsing the file-level `except Exception` handler of
excel_processor.py lines 585-590: an exception makes the whole extraction
return `None`. -/
def exceptToOption {α : Type} : Except String α → Option α
  | Except.ok a => Option.some a
  | Except.error _ => Option.none

/-- `extract_county_data` restricted to its row-scanning core
(excel_processor.py lines 487-590), given the located County Trend sheet and
the county name already derived from the file name. -/
def extract_county_data (county : String) (s : TrendSheet) : Option (List SourceRecord) :=
  exceptToOption (extractRows county (trendRows s))

/-- One row of the master workbook's Raw (ledger) sheet, columns A through R
(excel_processor.py lines 602-664). -/
structure RawRow where
  a : CellValue
  b : CellValue
  c : CellValue
  d : CellValue
  e : CellValue
  f : CellValue
  g : CellValue
  h : CellValue
  i : CellValue
  j : CellValue
  k : CellValue
  l : CellValue
  m : CellValue
  n : CellValue
  o : CellValue
  p : CellValue
  q : CellValue
  r : CellValue
deriving DecidableEq, Repr

/-- A ledger row all of whose cells are empty. -/
def emptyRawRow : RawRow :=
  { a := CellValue.none, b := CellValue.none, c := CellValue.none, d := CellValue.none
    e := CellValue.none, f := CellValue.none, g := CellValue.none, h := CellValue.none
    i := CellValue.none, j := CellValue.none, k := CellValue.none, l := CellValue.none
    m := CellValue.none, n := CellValue.none, o := CellValue.none, p := CellValue.none
    q := CellValue.none, r := CellValue.none }

/-- Writing a whole row at list index `idx` of a sheet stored as a list of
rows; openpyxl materialises missing rows, modelled by padding with `empty`. -/
def setAt {α : Type} (empty : α) : List α → ℕ → α → List α
  | [], 0, v => [v]
  | [], idx + 1, v => empty :: setAt empty [] idx v
  | _ :: xs, 0, v => v :: xs
  | x :: xs, idx + 1, v => x :: setAt empty xs idx v

/-- The while loop of `find_next_empty_row` (excel_processor.py lines 596-600),
carrying the current row number; reading past the sheet's content yields `None`. -/
def findNextEmptyRowAux : ℕ → List RawRow → ℕ
  | row, [] => row
  | row, r :: rest =>
    if r.a = CellValue.none then row else findNextEmptyRowAux (row + 1) rest

/-- `find_next_empty_row(sheet)` (excel_processor.py lines 592-600): scan
column A downward from row 2 until an empty cell is found.  List index `i`
is spreadsheet row `i + 2`. -/
def find_next_empty_row (sheet : List RawRow) : ℕ :=
  findNextEmptyRowAux 2 sheet

/-- Reading column A of the ledger at an absolute row number (row ≥ 2). -/
def rawCellA (sheet : List RawRow) (row : ℕ) : CellValue :=
  (sheet.getD (row - 2) emptyRawRow).a

/-- Reading column C of the ledger at an absolute row number (row ≥ 2). -/
def rawCellC (sheet : List RawRow) (row : ℕ) : CellValue :=
  (sheet.getD (row - 2) emptyRawRow).c

/-- The key formula written to ledger column D (excel_processor.py lines 636
and 274): `=CONCAT(A{row},C{row})`. -/
def concatFormula (row : ℕ) : String :=
  "=CONCAT(A" ++ toString row ++ ",C" ++ toString row ++ ")"

/-- The derived-column formula written to ledger column F (excel_processor.py
lines 643 and 280): deaths per 1,000. -/
def fFormula (row : ℕ) : String :=
  "=IF(E" ++ toString row ++ "=0,0,(G" ++ toString row ++ "/E" ++ toString row ++ ")*1000)"

/-- The derived-column formula written to ledger column H (excel_processor.py
lines 649 and 284): death service ratio. -/
def hFormula (row : ℕ) : String :=
  "=IF(G" ++ toString row ++ "=0,0,I" ++ toString row ++ "/G" ++ toString row ++ ")"

/-- The ledger row written for one record at an absolute row number
(excel_processor.py lines 628-660): columns A-R, with the key formula in D and
the derived-column formulas in F and H written unconditionally. -/
def rawRowOfRecord (row : ℕ) (rec : SourceRecord) : RawRow :=
  { a := CellValue.str rec.county
    b := CellValue.str rec.state
    c := CellValue.num rec.year
    d := CellValue.str (concatFormula row)
    e := CellValue.num rec.medicare_enrollment
    f := CellValue.str (fFormula row)
    g := CellValue.num rec.resident_deaths
    h := CellValue.str (hFormula row)
    i := CellValue.num rec.hospice_deaths
    j := CellValue.num rec.hospice_penetration
    k := CellValue.num rec.patients_served
    l := CellValue.num rec.days_per_patient
    m := CellValue.num rec.patient_days
    n := CellValue.num rec.avg_daily_census
    o := CellValue.num rec.gip_days_percent
    p := CellValue.num rec.avg_gip_census
    q := CellValue.num rec.gip_patients
    r := CellValue.num rec.payments_per_patient }

/-- `add_county_data_to_raw` (excel_processor.py lines 602-664): write one
ledger row per record starting at `start`, returning the updated sheet and
the next free row number. -/
def add_county_data_to_raw (sheet : List RawRow) (recs : List SourceRecord) (start : ℕ) :
    List RawRow × ℕ :=
  match recs with
  | [] => (sheet, start)
  | rec :: rest =>
    add_county_data_to_raw (setAt emptyRawRow sheet (start - 2) (rawRowOfRecord start rec))
      rest (start + 1)

/-- The per-file loop of `process_county_files` (excel_processor.py lines
46-50): extraction results that are `None` or empty are skipped (Python's
`if county_data:`), the rest appended in turn. -/
def addAll (sheet : List RawRow) (extracts : List (Option (List SourceRecord))) (start : ℕ) :
    List RawRow × ℕ :=
  match extracts with
  | [] => (sheet, start)
  | Option.some recs :: rest =>
    if recs.isEmpty then addAll sheet rest start
    else
      let step := add_county_data_to_raw sheet recs start
      addAll step.1 rest step.2
  | Option.none :: rest => addAll sheet rest start

/-- The per-row update of `standardize_key_columns` on the Raw sheet
(excel_processor.py lines 272-284), applied when county (A) and year (C) are
truthy: rewrite the key formula in D, and fill the derived columns F and H
with their formulas only when currently empty. -/
def stdRawUpdate (row : ℕ) (r : RawRow) : RawRow :=
  { r with
    d := CellValue.str (concatFormula row)
    f := if r.f = CellValue.none then CellValue.str (fFormula row) else r.f
    h := if r.h = CellValue.none then CellValue.str (hFormula row) else r.h }

/-- The Raw-sheet loop of `standardize_key_columns` (excel_processor.py lines
266-286): a while loop that stops at the first row with an empty column A,
leaving later rows untouched. -/
def standardizeRawList (row : ℕ) : List RawRow → List RawRow
  | [] => []
  | r :: rest =>
    if r.a = CellValue.none then r :: rest
    else
      (if r.a.truthy && r.c.truthy then stdRawUpdate row r else r) ::
        standardizeRawList (row + 1) rest

/-- One row of the Counties (lookup) sheet: the key columns A-E plus the
twelve XLOOKUP target columns H, I, J, K, Z, AB, AC, AD, AE, AF, AG, AH
(excel_processor.py lines 120-127 and 324-337). -/
structure CountiesRow where
  a : CellValue
  b : CellValue
  c : CellValue
  d : CellValue
  e : CellValue
  colH : CellValue
  colI : CellValue
  colJ : CellValue
  colK : CellValue
  colZ : CellValue
  colAB : CellValue
  colAC : CellValue
  colAD : CellValue
  colAE : CellValue
  colAF : CellValue
  colAG : CellValue
  colAH : CellValue
deriving DecidableEq, Repr

/-- A lookup row all of whose cells are empty. -/
def emptyCountiesRow : CountiesRow :=
  { a := CellValue.none, b := CellValue.none, c := CellValue.none, d := CellValue.none
    e := CellValue.none, colH := CellValue.none, colI := CellValue.none
    colJ := CellValue.none, colK := CellValue.none, colZ := CellValue.none
    colAB := CellValue.none, colAC := CellValue.none, colAD := CellValue.none
    colAE := CellValue.none, colAF := CellValue.none, colAG := CellValue.none
    colAH := CellValue.none }

/-- The text rendering shared by the lookup key and the ledger key formula.
Python's f-string renders the county text as-is and an integer year without a
decimal point; a non-integral rational is rendered as its decimal/ratio text
(the repository only ever stores integer years, so only the integral case is
exercised by the claims). -/
def cellText : CellValue → String
  | CellValue.none => "None"
  | CellValue.str s => s
  | CellValue.num q => if q.den = 1 then toString q.num else toString q

/-- The Counties row appended for one ledger tuple (excel_processor.py lines
118-127): A and B take the year, C the state, D the county, and E the key as
the plain-text concatenation `f-string county year`. -/
def newLookupRow (r : RawRow) : CountiesRow :=
  { emptyCountiesRow with
    a := r.c
    b := r.c
    c := r.b
    d := r.a
    e := CellValue.str (cellText r.a ++ cellText r.c) }

/-- The set of (county, year) pairs already present in the Counties sheet
(excel_processor.py lines 90-95): pairs (D, A) of rows where both are truthy. -/
def existingPairs : List CountiesRow → List (CellValue × CellValue)
  | [] => []
  | c :: rest =>
    if c.d.truthy && c.a.truthy then (c.d, c.a) :: existingPairs rest
    else existingPairs rest

/-- The greatest list index whose column A is non-empty, mirroring the
downward scan of excel_processor.py lines 103-106. -/
def lastNonNoneIdx : List CountiesRow → Option ℕ
  | [] => Option.none
  | c :: rest =>
    match lastNonNoneIdx rest with
    | Option.some idx => Option.some (idx + 1)
    | Option.none => if c.a = CellValue.none then Option.none else Option.some 0

/-- `next_counties_row` (excel_processor.py lines 97-106): row after the last
row with data in column A; 2 when only headers exist; `max_row + 1` when no
row has data (the for loop finds nothing and the initial value stands). -/
def nextCountiesRow (sheet : List CountiesRow) : ℕ :=
  if sheet.length = 0 then 2
  else
    match lastNonNoneIdx sheet with
    | Option.some idx => idx + 3
    | Option.none => sheet.length + 2

/-- The Raw-scanning while loop of `append_new_counties_to_sheet`
(excel_processor.py lines 110-136): for each ledger row with truthy county
(A), state (B) and year (C) whose (county, year) pair is not yet seen, write
a new lookup row at the current append position and record the pair. -/
def appendLoop (counties : List CountiesRow) (seen : List (CellValue × CellValue))
    (next added : ℕ) : List RawRow → List CountiesRow × ℕ
  | [] => (counties, added)
  | r :: rest =>
    if r.a.truthy && r.b.truthy && r.c.truthy && !(seen.contains (r.a, r.c)) then
      appendLoop (setAt emptyCountiesRow counties (next - 2) (newLookupRow r))
        ((r.a, r.c) :: seen) (next + 1) (added + 1) rest
    else appendLoop counties seen next added rest

/-- `append_new_counties_to_sheet` (excel_processor.py lines 80-147): build
the set of existing (county, year) pairs, find the append position, and scan
the ledger from row 2 while column A is non-empty. -/
def append_new_counties (raw : List RawRow) (counties : List CountiesRow) :
    List CountiesRow × ℕ :=
  appendLoop counties (existingPairs counties) (nextCountiesRow counties) 0
    (raw.takeWhile fun r => !(r.a = CellValue.none))

/-- The Counties-sheet loop of `standardize_key_columns` (excel_processor.py
lines 294-302): for every row with truthy county (D) and year (A), set the
key cell E to the plain-text concatenation. -/
def standardizeCountiesE : List CountiesRow → List CountiesRow
  | [] => []
  | c :: rest =>
    (if c.d.truthy && c.a.truthy then
        { c with e := CellValue.str (cellText c.d ++ cellText c.a) }
      else c) :: standardizeCountiesE rest

/-- The XLOOKUP formula written into a lookup column (excel_processor.py line
355). -/
def xlFormula (rawCol : String) (row rawMax : ℕ) : String :=
  "=XLOOKUP(E" ++ toString row ++ ",Raw!$D$2:$D$" ++ toString rawMax ++ ",Raw!$"
    ++ rawCol ++ "$2:$" ++ rawCol ++ "$" ++ toString rawMax ++ ")"

/-- The twelve formula writes of `restore_xlookup_formulas` for one row
(excel_processor.py lines 324-356). -/
def applyXlookup (rawMax row : ℕ) (c : CountiesRow) : CountiesRow :=
  { c with
    colH := CellValue.str (xlFormula "E" row rawMax)
    colI := CellValue.str (xlFormula "G" row rawMax)
    colJ := CellValue.str (xlFormula "K" row rawMax)
    colK := CellValue.str (xlFormula "I" row rawMax)
    colZ := CellValue.str (xlFormula "J" row rawMax)
    colAB := CellValue.str (xlFormula "N" row rawMax)
    colAC := CellValue.str (xlFormula "M" row rawMax)
    colAD := CellValue.str (xlFormula "L" row rawMax)
    colAE := CellValue.str (xlFormula "O" row rawMax)
    colAF := CellValue.str (xlFormula "P" row rawMax)
    colAG := CellValue.str (xlFormula "Q" row rawMax)
    colAH := CellValue.str (xlFormula "R" row rawMax) }

/-- `restore_xlookup_formulas` (excel_processor.py lines 312-364): every row
with a truthy key cell E receives the twelve XLOOKUP formulas. -/
def restoreXlookup (rawMax row : ℕ) : List CountiesRow → List CountiesRow
  | [] => []
  | c :: rest =>
    (if c.e.truthy then applyXlookup rawMax row c else c) ::
      restoreXlookup rawMax (row + 1) rest

/-- The in-memory master workbook: its sheet-name list, the Raw ledger sheet
(rows from 2) and the Counties lookup sheet (rows from 2). -/
structure Workbook where
  sheetnames : List String
  raw : List RawRow
  counties : List CountiesRow
deriving DecidableEq, Repr

/-- One run of the processing pipeline over a batch of extraction results
(`process_county_files` body, excel_processor.py lines 42-67): find the first
free ledger row, append each file's records, standardize the key columns
(`standardize_key_columns` returns without doing anything unless both Raw and
Counties sheets exist), and, when a Counties sheet exists, append new
counties and restore the XLOOKUP formulas over the ledger range.  The
formatting pass touches only styles, not cell values, and is not modelled. -/
def runPipeline (wb : Workbook) (extracts : List (Option (List SourceRecord))) : Workbook :=
  let start := find_next_empty_row wb.raw
  let raw1 := (addAll wb.raw extracts start).1
  let stdOn := ("Raw" ∈ wb.sheetnames ∧ "Counties" ∈ wb.sheetnames : Bool)
  let raw2 := if stdOn then standardizeRawList 2 raw1 else raw1
  let cts1 := if stdOn then standardizeCountiesE wb.counties else wb.counties
  if "Counties" ∈ wb.sheetnames then
    let cts2 := (append_new_counties raw2 cts1).1
    let cts3 := restoreXlookup (raw2.length + 1) 2 cts2
    { wb with raw := raw2, counties := cts3 }
  else { wb with raw := raw2, counties := cts1 }

/-- `process_county_files` (excel_processor.py lines 12-78): a missing Raw
sheet raises a `ValueError` caught by the function's own handler, which
returns `None`; otherwise the pipeline runs and the workbook is serialized. -/
def process_county_files (wb : Workbook) (extracts : List (Option (List SourceRecord))) :
    Option Workbook :=
  if "Raw" ∈ wb.sheetnames then Option.some (runPipeline wb extracts)
  else Option.none

/-- The web layer's answer to an upload (app.py lines 64-76): a download of
the processed workbook, or a flash message followed by a redirect. -/
inductive UploadResponse where
  | download : Workbook → UploadResponse
  | redirect : String → UploadResponse
deriving DecidableEq

/-- `upload_files` after its extension checks have passed (app.py lines
63-76): a `None` result from processing yields an error flash and a redirect
instead of a file download. -/
def upload_files (wb : Workbook) (extracts : List (Option (List SourceRecord))) :
    UploadResponse :=
  match process_county_files wb extracts with
  | Option.some out => UploadResponse.download out
  | Option.none =>
    UploadResponse.redirect
      "Error processing files. Some county files may be corrupted or not in proper Excel format."

/-- The three outcomes of `zipfile.ZipFile(file_obj)` in
`DebugLogger.log_file_info` (debug_logger.py lines 41-47): a successful open
with an entry list, a `BadZipFile` error, or any other exception. -/
inductive ZipOutcome where
  | ok : List String → ZipOutcome
  | badZip : String → ZipOutcome
  | otherErr : String → ZipOutcome
deriving DecidableEq, Repr

/-- The behaviour of an uploaded byte stream as observed by
`DebugLogger.log_file_info`: its declared name, whether seeking raises, the
size reported by seek/tell, the outcome of the zip probe, whether reading
raises, and the stream's first bytes. -/
structure FileStream where
  filenameStr : String
  seekFails : Bool
  sizeVal : ℕ
  zipOutcome : ZipOutcome
  readFails : Bool
  firstBytes : List ℕ
deriving DecidableEq, Repr

/-- The diagnostic dict built by `DebugLogger.log_file_info`
(debug_logger.py lines 25-32), with the `error` key for captured exceptions. -/
structure FileInfo where
  filename : String
  file_size : Option ℕ
  is_zip_file : Bool
  zip_test : Option String
  file_type : Option String
  zip_contents : Option (List String)
  errField : Option String
deriving DecidableEq, Repr

/-- The modern-container magic `PK\x03\x04` (debug_logger.py line 54). -/
def zipMagic : List ℕ := [0x50, 0x4B, 0x03, 0x04]

/-- The legacy compound-binary magic (debug_logger.py line 56). -/
def oleMagic : List ℕ := [0xd0, 0xcf, 0x11, 0xe0, 0xa1, 0xb1, 0x1a, 0xe1]

/-- A hex digit character, as produced by Python's `bytes.hex()`. -/
def hexChar (n : ℕ) : Char :=
  if n < 10 then Char.ofNat (48 + n) else Char.ofNat (87 + n)

/-- Two-character lowercase hex rendering of one byte. -/
def byteHex (n : ℕ) : String :=
  String.mk [hexChar (n / 16 % 16), hexChar (n % 16)]

/-- `bytes.hex()` over the first bytes of the stream. -/
def bytesHex (bs : List ℕ) : String :=
  String.join (bs.map byteHex)

/-- `DebugLogger.log_file_info` (debug_logger.py lines 23-67): probe the
stream inside a `try` that captures any exception into the diagnostic's
`error` key, leaving the flags at their conservative initial values.  On a
`BadZipFile` the first 8 bytes are compared against the two signatures. -/
def log_file_info (s : FileStream) : FileInfo :=
  let info0 : FileInfo :=
    { filename := s.filenameStr, file_size := Option.none, is_zip_file := false
      zip_test := Option.none, file_type := Option.none, zip_contents := Option.none
      errField := Option.none }
  if s.seekFails then { info0 with errField := Option.some "seek failed" }
  else
    let info1 := { info0 with file_size := Option.some s.sizeVal }
    match s.zipOutcome with
    | ZipOutcome.ok entries =>
      { info1 with is_zip_file := true, zip_contents := Option.some (entries.take 10) }
    | ZipOutcome.otherErr msg => { info1 with errField := Option.some msg }
    | ZipOutcome.badZip msg =>
      let info2 := { info1 with zip_test := Option.some ("BadZipFile: " ++ msg) }
      if s.readFails then { info2 with errField := Option.some "read failed" }
      else if s.firstBytes.take 4 = zipMagic then
        { info2 with file_type := Option.some "Looks like ZIP/XLSX but corrupted" }
      else if s.firstBytes.take 8 = oleMagic then
        { info2 with file_type := Option.some "Old Excel format (XLS)" }
      else
        { info2 with
          file_type := Option.some ("Unknown format. First bytes: " ++ bytesHex s.firstBytes) }

/-- A County Trend row all of whose cells are empty. -/
def allNoneTrendRow : TrendRow :=
  { year := CellValue.none, medicare := CellValue.none, residentDeaths := CellValue.none
    hospiceDeaths := CellValue.none, penetration := CellValue.none
    patientsServed := CellValue.none, daysPerPatient := CellValue.none
    patientDays := CellValue.none, avgDailyCensus := CellValue.none
    gipDaysPct := CellValue.none, avgGipCensus := CellValue.none
    gipPatients := CellValue.none, paymentsPerPatient := CellValue.none }

/-- A County Trend row all of whose thirteen cells hold numbers, in the
column order B, C, E, G, H, I, J, K, L, M, N, O, P. -/
def numRow (y m e g hh i j k l mm n o p : ℚ) : TrendRow :=
  { year := CellValue.num y, medicare := CellValue.num m
    residentDeaths := CellValue.num e, hospiceDeaths := CellValue.num g
    penetration := CellValue.num hh, patientsServed := CellValue.num i
    daysPerPatient := CellValue.num j, patientDays := CellValue.num k
    avgDailyCensus := CellValue.num l, gipDaysPct := CellValue.num mm
    avgGipCensus := CellValue.num n, gipPatients := CellValue.num o
    paymentsPerPatient := CellValue.num p }

/-- A row with numeric anchors and every non-anchor metric cell empty. -/
def blankMetricsRow (y m : ℚ) : TrendRow :=
  { allNoneTrendRow with year := CellValue.num y, medicare := CellValue.num m }

/-- The record extracted from a row with numeric anchors and empty non-anchor
cells: every non-anchor metric coerces to 0. -/
def zeroRecord (county : String) (y m : ℚ) : SourceRecord :=
  { county := county, state := "NC", year := y
    medicare_enrollment := pyRoundInt m, resident_deaths := 0, hospice_deaths := 0
    patients_served := 0, patient_days := 0, gip_patients := 0
    hospice_penetration := 0, gip_days_percent := 0, days_per_patient := 0
    avg_daily_census := 0, payments_per_patient := 0, avg_gip_census := 0 }

/-- A one-data-row County Trend sheet with numeric anchors and empty metrics. -/
def blankMetricSheet (y m : ℚ) : TrendSheet :=
  { cells := fun _ => blankMetricsRow y m, maxRow := 10 }

/-- A one-data-row County Trend sheet whose resident-deaths cell (column E)
holds the text `s`. -/
def strMetricSheet (y m : ℚ) (s : String) : TrendSheet :=
  { cells := fun _ => { blankMetricsRow y m with residentDeaths := CellValue.str s }
    maxRow := 10 }

/-- A one-data-row County Trend sheet whose resident-deaths cell holds 3.57,
exercising the rounding class of that metric. -/
def c6Sheet : TrendSheet :=
  { cells := fun _ => numRow 2010 1000 (357 / 100) 0 0 0 0 0 0 0 0 0 0, maxRow := 10 }

/-- A two-block County Trend sheet: valid rows at 10-11, a blank row at 12,
and more valid-looking rows at 13-14. -/
def c1Sheet : TrendSheet :=
  { cells := fun rw =>
      if rw = 10 then blankMetricsRow 2009 100
      else if rw = 11 then blankMetricsRow 2010 100
      else if rw = 12 then allNoneTrendRow
      else blankMetricsRow 2024 100
    maxRow := 14 }

/-- A ledger whose first data row has data but whose second row has an empty
column A with leftover content in the derived columns F and H. -/
def ledgerGapped : List RawRow :=
  [{ emptyRawRow with a := CellValue.str "X" },
   { emptyRawRow with f := CellValue.num 5 },
   { emptyRawRow with a := CellValue.str "Y" }]

/-- A one-row ledger whose column A is empty but whose derived columns F and
H hold numbers. -/
def rawDerivedNonEmpty : List RawRow :=
  [{ emptyRawRow with f := CellValue.num 5, h := CellValue.num 7 }]

/-- A master workbook without a Counties sheet, whose ledger is
`rawDerivedNonEmpty`. -/
def wbDerived : Workbook :=
  { sheetnames := ["Raw"], raw := rawDerivedNonEmpty, counties := [] }

/-- The lookup rows the append loop adds when writing at the sheet's end: one
`newLookupRow` per eligible ledger row whose (county, year) pair is not yet
seen, the pair being recorded as soon as it is added (the functional reading
of the loop of excel_processor.py lines 110-136). -/
def collectNew (seen : List (CellValue × CellValue)) : List RawRow → List CountiesRow
  | [] => []
  | r :: rest =>
    if r.a.truthy && r.b.truthy && r.c.truthy && !(seen.contains (r.a, r.c)) then
      newLookupRow r :: collectNew ((r.a, r.c) :: seen) rest
    else collectNew seen rest

/-- Modelled from the spec: the string value the ledger row's key formula
`=CONCAT(A{rn},C{rn})` evaluates to.  The formula text is written by the
Python source but its evaluation is Excel's; per the spec, CONCAT renders
the county text as-is and an integer year without a decimal point, exactly
as the Python f-string used for the lookup key does. -/
def concatKeyEval (raw : List RawRow) (rn : ℕ) : String :=
  cellText (rawCellA raw rn) ++ cellText (rawCellC raw rn)

/-- A ledger row holding the Burke / NC / 2010 tuple. -/
def rawBurkeRow : RawRow :=
  { emptyRawRow with
    a := CellValue.str "Burke", b := CellValue.str "NC", c := CellValue.num 2010 }

/-- A one-row ledger holding the Burke 2010 tuple. -/
def rawBurke : List RawRow := [rawBurkeRow]

/-- An arbitrary concrete record used to exercise the appender. -/
def recSample : SourceRecord :=
  { county := "Z", state := "NC", year := 2024
    medicare_enrollment := 50, resident_deaths := 3, hospice_deaths := 2
    patients_served := 4, patient_days := 9, gip_patients := 1
    hospice_penetration := 1 / 5, gip_days_percent := 1 / 10, days_per_patient := 7
    avg_daily_census := 6, payments_per_patient := 11, avg_gip_census := 2 }

/-- The (county, year) cells of each ledger row, in order. -/
def rawPairs (l : List RawRow) : List (CellValue × CellValue) :=
  l.map fun r => (r.a, r.c)

/-- The (county, year) cells that a list of records writes into the ledger. -/
def recsPairs (recs : List SourceRecord) : List (CellValue × CellValue) :=
  recs.map fun rec => (CellValue.str rec.county, CellValue.num rec.year)

/-- The number of lookup-sheet rows whose truthy (county, year) pair — the
pair `append_new_counties_to_sheet` de-duplicates on — equals `p`. -/
def cntPair (C : List CountiesRow) (p : CellValue × CellValue) : ℕ :=
  C.countP fun c => c.d.truthy && c.a.truthy && decide ((c.d, c.a) = p)

/-- The ledger rows the appender writes for a record list starting at a row
number. -/
def recsRows : ℕ → List SourceRecord → List RawRow
  | _, [] => []
  | rn, rec :: rest => rawRowOfRecord rn rec :: recsRows (rn + 1) rest

/-- The (county, year) pairs of ledger rows eligible for the lookup append:
truthy county (A), state (B) and year (C), in scan order. -/
def eligPairs : List RawRow → List (CellValue × CellValue)
  | [] => []
  | r :: rest =>
    if r.a.truthy && r.b.truthy && r.c.truthy then (r.a, r.c) :: eligPairs rest
    else eligPairs rest

/-- Two successive pipeline runs over the same extraction result — the
"process the same county file twice against the same master workbook"
scenario. -/
def twoRuns (wb : Workbook) (recs : List SourceRecord) : Workbook :=
  runPipeline (runPipeline wb [Option.some recs]) [Option.some recs]

/-- A fresh master workbook with both sheets present and no data rows. -/
def wbFresh : Workbook :=
  { sheetnames := ["Raw", "Counties"], raw := [], counties := [] }

/- ——————————————————————————— helper lemmas ——————————————————————————— -/

lemma exceptBind_ok {α β : Type} (a : α) (f : α → Except String β) :
    (Except.ok a >>= f : Except String β) = f a := rfl

lemma exceptBind_err {α β : Type} (e : String) (f : α → Except String β) :
    ((Except.error e : Except String α) >>= f) = Except.error e := rfl

lemma trendRows_const10 (r : TrendRow) :
    trendRows { cells := fun _ => r, maxRow := 10 } = [r] := rfl

lemma anchorBlank_numRow (y m e g hh i j k l mm n o p : ℚ) :
    anchorBlank (numRow y m e g hh i j k l mm n o p) = false := rfl

lemma anchorNum_numRow (y m e g hh i j k l mm n o p : ℚ) :
    anchorNum (numRow y m e g hh i j k l mm n o p) = true := rfl

lemma anchorBlank_blankMetrics (y m : ℚ) : anchorBlank (blankMetricsRow y m) = false := rfl

lemma anchorNum_blankMetrics (y m : ℚ) : anchorNum (blankMetricsRow y m) = true := rfl

lemma anchorBlank_strMetric (y m : ℚ) (s : String) :
    anchorBlank { blankMetricsRow y m with residentDeaths := CellValue.str s } = false := rfl

lemma anchorNum_strMetric (y m : ℚ) (s : String) :
    anchorNum { blankMetricsRow y m with residentDeaths := CellValue.str s } = true := rfl

lemma coerceInt_none : coerceInt CellValue.none = Except.ok 0 := rfl

lemma coerceRound_none (n : ℕ) : coerceRound CellValue.none n = Except.ok 0 := rfl

lemma coercePct_none : coercePct CellValue.none = Except.ok (pyRound (normalizePct 0) 4) := rfl

lemma pyRound_zero (n : ℕ) : pyRound 0 n = 0 := by
  have h : (0 : ℚ) * 10 ^ n + 1 / 2 = 1 / 2 := by ring
  rw [pyRound, h]
  norm_num

lemma pyRoundInt_zero : pyRoundInt 0 = 0 := by
  rw [pyRoundInt]
  norm_num

lemma normalizePct_zero : normalizePct 0 = 0 := by
  norm_num [normalizePct]

lemma coerceRound_num (q : ℚ) (n : ℕ) :
    coerceRound (CellValue.num q) n = Except.ok (pyRound q n) := by
  by_cases hq : q = 0
  · subst hq
    simp [coerceRound, CellValue.truthy, pyRound_zero]
  · simp [coerceRound, CellValue.truthy, hq]

lemma coerceInt_num (q : ℚ) :
    coerceInt (CellValue.num q) = Except.ok (pyRoundInt q) := by
  by_cases hq : q = 0
  · subst hq
    simp [coerceInt, CellValue.truthy, pyRoundInt_zero]
  · simp [coerceInt, CellValue.truthy, hq]

lemma coercePct_num (q : ℚ) :
    coercePct (CellValue.num q) = Except.ok (pyRound (normalizePct q) 4) := by
  by_cases hq : q = 0
  · subst hq
    simp [coercePct, CellValue.truthy, normalizePct_zero]
  · simp [coercePct, CellValue.truthy, hq]

lemma getD_setAt {α : Type} (empty v : α) :
    ∀ (l : List α) (idx j : ℕ),
      (setAt empty l idx v).getD j empty = if j = idx then v else l.getD j empty
  | [], 0, 0 => by simp [setAt]
  | [], 0, j + 1 => by simp [setAt]
  | [], idx + 1, 0 => by simp [setAt]
  | [], idx + 1, j + 1 => by
    simpa [setAt] using getD_setAt empty v [] idx j
  | _ :: xs, 0, 0 => by simp [setAt]
  | _ :: xs, 0, j + 1 => by simp [setAt]
  | x :: xs, idx + 1, 0 => by simp [setAt]
  | x :: xs, idx + 1, j + 1 => by
    simpa [setAt] using getD_setAt empty v xs idx j

lemma setAt_length_append {α : Type} (empty v : α) :
    ∀ l : List α, setAt empty l l.length v = l ++ [v]
  | [] => by simp [setAt]
  | x :: xs => by simp [setAt, setAt_length_append empty v xs]

/- ——————————————————————————— claim C4 ——————————————————————————— -/

/-- C4 (counterexample): the percentage normalization is not idempotent in
general — normalizing 200 yields 2, and normalizing that again divides a
second time, yielding 1/50 instead of 2. -/
theorem c4_normalization_cex :
    normalizePct 200 = 2 ∧ normalizePct (normalizePct 200) = 1 / 50 ∧ (1 / 50 : ℚ) ≠ 2 := by
  norm_num [normalizePct]

/-- C4 (amended): percentage normalization maps `v` to `v / 100` when `v > 1`
and leaves `v ≤ 1` unchanged, and it is idempotent on values that normalize
into the 0-1 scale, i.e. on raw values at most 100; above 100 a second
application divides again. -/
theorem c4_normalization_amended (q : ℚ) :
    (1 < q → normalizePct q = q / 100) ∧ (q ≤ 1 → normalizePct q = q) ∧
      (q ≤ 100 → normalizePct (normalizePct q) = normalizePct q) := by
  refine ⟨fun h => by simp [normalizePct, h], fun h => by simp [normalizePct, not_lt.mpr h], ?_⟩
  intro h100
  by_cases h : 1 < q
  · have h1 : normalizePct q = q / 100 := by simp [normalizePct, h]
    have h2 : ¬(1 < q / 100) := by
      rw [not_lt]
      linarith
    rw [h1]
    simp [normalizePct, h2]
  · have h1 : normalizePct q = q := by simp [normalizePct, h]
    rw [h1, h1]

/-- Witness for C4 (amended) at the spec's own examples 42 and 0.42. -/
theorem c4_normalization_amended_witness :
    normalizePct 42 = 42 / 100 ∧ normalizePct (42 / 100) = 42 / 100 ∧
      normalizePct (normalizePct 42) = normalizePct 42 :=
  ⟨(c4_normalization_amended 42).1 (by norm_num),
   (c4_normalization_amended (42 / 100)).2.1 (by norm_num),
   (c4_normalization_amended 42).2.2 (by norm_num)⟩

/- ——————————————————————————— claim C8 ——————————————————————————— -/

/-- C8: when the master workbook has no sheet named `Raw`, the batch aborts —
processing returns no output workbook and the upload endpoint answers with an
error flash and a redirect instead of a download. -/
theorem c8_missing_raw_aborts (wb : Workbook) (extracts : List (Option (List SourceRecord)))
    (h : "Raw" ∉ wb.sheetnames) :
    process_county_files wb extracts = Option.none ∧
      upload_files wb extracts =
        UploadResponse.redirect
          "Error processing files. Some county files may be corrupted or not in proper Excel format." := by
  constructor
  · simp [process_county_files, h]
  · simp [upload_files, process_county_files, h]

/-- Witness for C8 at a workbook whose only sheet is `Counties`. -/
theorem c8_missing_raw_aborts_witness :
    process_county_files { sheetnames := ["Counties"], raw := [], counties := [] } [] =
        Option.none ∧
      upload_files { sheetnames := ["Counties"], raw := [], counties := [] } [] =
        UploadResponse.redirect
          "Error processing files. Some county files may be corrupted or not in proper Excel format." :=
  c8_missing_raw_aborts { sheetnames := ["Counties"], raw := [], counties := [] } []
    (by decide)

/- ——————————————————————————— claim C9 ——————————————————————————— -/

/-- C9: the file-type classifier is a total function of the stream's observed
behaviour — every internal error ends up in the diagnostic `error` field —
and whenever an error was captured, the classification is conservative: the
modern-container flag is `false` and no file type (in particular not the
legacy signature) has been recorded. -/
theorem c9_classifier_conservative (s : FileStream)
    (h : (log_file_info s).errField.isSome = true) :
    (log_file_info s).is_zip_file = false ∧ (log_file_info s).file_type = Option.none := by
  unfold log_file_info at h ⊢
  by_cases hs : s.seekFails
  · simp [hs]
  · cases hz : s.zipOutcome with
    | ok entries => simp [hs, hz] at h
    | otherErr msg => simp [hs, hz]
    | badZip msg =>
      by_cases hr : s.readFails
      · simp [hs, hz, hr]
      · by_cases h4 : s.firstBytes.take 4 = zipMagic
        · simp [hs, hz, hr, h4] at h
        · by_cases h8 : s.firstBytes.take 8 = oleMagic
          · simp [hs, hz, hr, h4, h8] at h
          · simp [hs, hz, hr, h4, h8] at h

/-- Witness for C9 at a stream whose seek probe raises. -/
theorem c9_classifier_conservative_witness :
    (log_file_info
          { filenameStr := "bad.xlsx", seekFails := true, sizeVal := 0
            zipOutcome := ZipOutcome.badZip "m", readFails := false
            firstBytes := [] }).is_zip_file = false ∧
      (log_file_info
          { filenameStr := "bad.xlsx", seekFails := true, sizeVal := 0
            zipOutcome := ZipOutcome.badZip "m", readFails := false
            firstBytes := [] }).file_type = Option.none :=
  c9_classifier_conservative
    { filenameStr := "bad.xlsx", seekFails := true, sizeVal := 0
      zipOutcome := ZipOutcome.badZip "m", readFails := false, firstBytes := [] }
    (by decide)

lemma buildRecord_numRow (county : String) (y m e g hh i j k l mm n o p : ℚ) :
    buildRecord county (numRow y m e g hh i j k l mm n o p) = Except.ok
      { county := county, state := "NC", year := y
        medicare_enrollment := pyRoundInt m
        resident_deaths := pyRound e 1
        hospice_deaths := pyRoundInt g
        patients_served := pyRoundInt i
        patient_days := pyRoundInt k
        gip_patients := pyRoundInt o
        hospice_penetration := pyRound (normalizePct hh) 4
        gip_days_percent := pyRound (normalizePct mm) 4
        days_per_patient := pyRound j 2
        avg_daily_census := pyRound l 2
        payments_per_patient := pyRound p 2
        avg_gip_census := pyRound n 1 } := by
  simp [buildRecord, numRow, coercePct_num, coerceInt_num, coerceRound_num,
    exceptBind_ok, CellValue.asNum]

lemma buildRecord_blankMetrics (county : String) (y m : ℚ) :
    buildRecord county (blankMetricsRow y m) = Except.ok (zeroRecord county y m) := by
  simp [buildRecord, blankMetricsRow, allNoneTrendRow, coercePct_none, coerceRound_none,
    coerceInt_none, coerceInt_num, exceptBind_ok, CellValue.asNum, zeroRecord,
    normalizePct_zero, pyRound_zero]

lemma buildRecord_strMetric (county : String) (y m : ℚ) (s : String) (hs : s ≠ "") :
    buildRecord county { blankMetricsRow y m with residentDeaths := CellValue.str s } =
      Except.error "TypeError" := by
  have hsv : coerceRound (CellValue.str s) 1 = Except.error "TypeError" := by
    simp [coerceRound, CellValue.truthy, hs]
  simp [buildRecord, blankMetricsRow, allNoneTrendRow, coercePct_none, coerceRound_none,
    coerceInt_none, coerceInt_num, hsv, exceptBind_ok, exceptBind_err]

/- ——————————————————————————— claim C6 ——————————————————————————— -/

/-- C6 (counterexample): a resident-deaths value of 3.57 is stored as 3.6 —
the code rounds resident deaths to 1 decimal (the code comment says "1
decimal for death rates") — whereas the claim's 0-decimal integer-count
class would store 4. -/
theorem c6_rounding_cex :
    extract_county_data "X" c6Sheet =
        Option.some
          [{ county := "X", state := "NC", year := 2010
             medicare_enrollment := 1000, resident_deaths := 18 / 5, hospice_deaths := 0
             patients_served := 0, patient_days := 0, gip_patients := 0
             hospice_penetration := 0, gip_days_percent := 0, days_per_patient := 0
             avg_daily_census := 0, payments_per_patient := 0, avg_gip_census := 0 }] ∧
      pyRoundInt (357 / 100) = 4 ∧ (18 / 5 : ℚ) ≠ 4 := by
  refine ⟨?_, by norm_num [pyRoundInt], by norm_num⟩
  rw [extract_county_data,
    show trendRows c6Sheet = [numRow 2010 1000 (357 / 100) 0 0 0 0 0 0 0 0 0 0] from rfl]
  simp [extractRows, anchorBlank_numRow, anchorNum_numRow, buildRecord_numRow, exceptToOption]
  norm_num [pyRound, pyRoundInt, normalizePct_zero, pyRound_zero]

/-- C6 (amended): every extracted record's metrics are rounded by class, with
medicare enrollment, hospice deaths, patients served, patient days and GIP
patients at 0 decimals, resident deaths and average GIP census at 1 decimal,
days per patient, average daily census and payments per patient at 2
decimals, and the two normalized percentages at 4 decimals. -/
theorem c6_rounding_amended (county : String) (y m e g hh i j k l mm n o p : ℚ) :
    buildRecord county (numRow y m e g hh i j k l mm n o p) = Except.ok
      { county := county, state := "NC", year := y
        medicare_enrollment := pyRoundInt m
        resident_deaths := pyRound e 1
        hospice_deaths := pyRoundInt g
        patients_served := pyRoundInt i
        patient_days := pyRoundInt k
        gip_patients := pyRoundInt o
        hospice_penetration := pyRound (normalizePct hh) 4
        gip_days_percent := pyRound (normalizePct mm) 4
        days_per_patient := pyRound j 2
        avg_daily_census := pyRound l 2
        payments_per_patient := pyRound p 2
        avg_gip_census := pyRound n 1 } :=
  buildRecord_numRow county y m e g hh i j k l mm n o p

/- ——————————————————————————— claim C5 ——————————————————————————— -/

/-- C5 (counterexample): a row whose anchor pair is numeric but whose
resident-deaths cell holds the text `abc` does not yield a record — the
`TypeError` raised by `round` is caught at file level and the whole
extraction returns `None`. -/
theorem c5_nonnumeric_metric_cex :
    anchorNum ((strMetricSheet 2010 100 "abc").cells 10) = true ∧
      extract_county_data "X" (strMetricSheet 2010 100 "abc") = Option.none := by
  refine ⟨rfl, ?_⟩
  rw [extract_county_data,
    show trendRows (strMetricSheet 2010 100 "abc") =
      [{ blankMetricsRow 2010 100 with residentDeaths := CellValue.str "abc" }] from rfl]
  simp [extractRows, anchorBlank_strMetric, anchorNum_strMetric,
    buildRecord_strMetric "X" 2010 100 "abc" (by decide), exceptToOption]

/-- C5 (amended): an absent (falsy) non-anchor metric cell coerces to 0 and
the row still yields a record; but a truthy non-numeric non-anchor value
raises a `TypeError` that is caught at file level, so extraction returns
`None` for the entire file rather than skipping the row. -/
theorem c5_nonnumeric_metric_amended (county : String) (y m : ℚ) (s : String) (hs : s ≠ "") :
    extract_county_data county (blankMetricSheet y m) =
        Option.some [zeroRecord county y m] ∧
      extract_county_data county (strMetricSheet y m s) = Option.none := by
  constructor
  · rw [extract_county_data,
      show trendRows (blankMetricSheet y m) = [blankMetricsRow y m] from rfl]
    simp [extractRows, anchorBlank_blankMetrics, anchorNum_blankMetrics,
      buildRecord_blankMetrics, exceptToOption]
  · rw [extract_county_data,
      show trendRows (strMetricSheet y m s) =
        [{ blankMetricsRow y m with residentDeaths := CellValue.str s }] from rfl]
    simp [extractRows, anchorBlank_strMetric, anchorNum_strMetric,
      buildRecord_strMetric county y m s hs, exceptToOption]

/-- Witness for C5 (amended) at year 2010, enrollment 100 and the text `abc`. -/
theorem c5_nonnumeric_metric_amended_witness :
    extract_county_data "Burke" (blankMetricSheet 2010 100) =
        Option.some [zeroRecord "Burke" 2010 100] ∧
      extract_county_data "Burke" (strMetricSheet 2010 100 "abc") = Option.none :=
  c5_nonnumeric_metric_amended "Burke" 2010 100 "abc" (by decide)

/- ——————————————————————————— claim C1 ——————————————————————————— -/

lemma extractRows_stop_prefix (county : String) (rb : TrendRow) (l₂ : List TrendRow)
    (h₂ : anchorBlank rb = true) :
    ∀ l₁ : List TrendRow, (∀ x ∈ l₁, anchorBlank x = false) →
      extractRows county (l₁ ++ rb :: l₂) = extractRows county l₁
  | [], _ => by simp [extractRows, h₂]
  | x :: t, h => by
    have hx : anchorBlank x = false := h x (List.mem_cons_self x t)
    have ht : ∀ y ∈ t, anchorBlank y = false := fun y hy => h y (List.mem_cons_of_mem x hy)
    have ih := extractRows_stop_prefix county rb l₂ h₂ t ht
    simp [extractRows, hx, ih]

/-- C1: extraction scans from row 10 and stops at the first row with a blank
anchor cell; when the visited rows split as a gap-free block, a blank-anchored
row, and an arbitrary tail, the result is exactly the extraction of the first
block — nothing after the gap is ever read. -/
theorem c1_stop_at_first_gap (county : String) (s : TrendSheet)
    (l₁ l₂ : List TrendRow) (rb : TrendRow)
    (h₁ : ∀ x ∈ l₁, anchorBlank x = false) (h₂ : anchorBlank rb = true)
    (hs : trendRows s = l₁ ++ rb :: l₂) :
    extract_county_data county s = exceptToOption (extractRows county l₁) := by
  rw [extract_county_data, hs, extractRows_stop_prefix county rb l₂ h₂ l₁ h₁]

/-- Witness for C1 at a sheet with data at rows 10-11, a blank row 12, and a
second data block at rows 13-14: only the first block is extracted. -/
theorem c1_stop_at_first_gap_witness :
    extract_county_data "Burke" c1Sheet =
      exceptToOption (extractRows "Burke" [blankMetricsRow 2009 100, blankMetricsRow 2010 100]) :=
  c1_stop_at_first_gap "Burke" c1Sheet
    [blankMetricsRow 2009 100, blankMetricsRow 2010 100]
    [blankMetricsRow 2024 100, blankMetricsRow 2024 100] allNoneTrendRow
    (by
      intro x hx
      simp only [List.mem_cons, List.not_mem_nil, or_false] at hx
      rcases hx with h | h <;> subst h <;> rfl)
    rfl rfl

/- ——————————————————————————— claim C10 ——————————————————————————— -/

lemma findAux_base_le : ∀ (l : List RawRow) (base : ℕ), base ≤ findNextEmptyRowAux base l := by
  intro l
  induction l with
  | nil => intro base; simp [findNextEmptyRowAux]
  | cons r rest ih =>
    intro base
    by_cases hr : r.a = CellValue.none
    · simp [findNextEmptyRowAux, hr]
    · simp only [findNextEmptyRowAux, hr, if_false]
      exact le_trans (Nat.le_succ base) (ih (base + 1))

lemma findAux_getD_a : ∀ (l : List RawRow) (base : ℕ),
    (l.getD (findNextEmptyRowAux base l - base) emptyRawRow).a = CellValue.none := by
  intro l
  induction l with
  | nil => intro base; simp [findNextEmptyRowAux, emptyRawRow]
  | cons r rest ih =>
    intro base
    by_cases hr : r.a = CellValue.none
    · simp [findNextEmptyRowAux, hr]
    · have hle : base + 1 ≤ findNextEmptyRowAux (base + 1) rest := findAux_base_le rest (base + 1)
      have harith : findNextEmptyRowAux (base + 1) rest - base =
          (findNextEmptyRowAux (base + 1) rest - (base + 1)) + 1 := by omega
      simp only [findNextEmptyRowAux, hr, if_false, harith, List.getD_cons_succ]
      exact ih (base + 1)

lemma findAux_lt_ne : ∀ (l : List RawRow) (base row : ℕ), base ≤ row →
    row < findNextEmptyRowAux base l →
    (l.getD (row - base) emptyRawRow).a ≠ CellValue.none := by
  intro l
  induction l with
  | nil =>
    intro base row h1 h2
    rw [findNextEmptyRowAux] at h2
    omega
  | cons r rest ih =>
    intro base row h1 h2
    by_cases hr : r.a = CellValue.none
    · rw [findNextEmptyRowAux, if_pos hr] at h2
      omega
    · rw [findNextEmptyRowAux, if_neg hr] at h2
      by_cases hbr : row = base
      · subst hbr
        simpa using hr
      · have harith : row - base = (row - (base + 1)) + 1 := by omega
        rw [harith, List.getD_cons_succ]
        exact ih (base + 1) row (by omega) h2

/-- C10: the first free ledger row is determined solely by column A —
`find_next_empty_row` returns a row whose column A is empty while every row
from 2 up to it has a non-empty column A (no other column is consulted), and
the appender writes a full record row there, replacing whatever the other
columns of that row held. -/
theorem c10_first_free_row_by_column_a (sheet : List RawRow) :
    rawCellA sheet (find_next_empty_row sheet) = CellValue.none ∧
      (∀ row, 2 ≤ row → row < find_next_empty_row sheet →
        rawCellA sheet row ≠ CellValue.none) ∧
      ∀ rec, (add_county_data_to_raw sheet [rec] (find_next_empty_row sheet)).1.getD
          (find_next_empty_row sheet - 2) emptyRawRow =
        rawRowOfRecord (find_next_empty_row sheet) rec := by
  refine ⟨findAux_getD_a sheet 2, fun row h2 hlt => findAux_lt_ne sheet 2 row h2 hlt, fun rec => ?_⟩
  show (setAt emptyRawRow sheet (find_next_empty_row sheet - 2)
      (rawRowOfRecord (find_next_empty_row sheet) rec)).getD
      (find_next_empty_row sheet - 2) emptyRawRow = _
  rw [getD_setAt]
  simp

/-- Witness for C10 at a ledger whose row 3 has an empty column A but data in
column F: that row's columns are overwritten by the appender. -/
theorem c10_first_free_row_by_column_a_witness :
    rawCellA ledgerGapped (find_next_empty_row ledgerGapped) = CellValue.none ∧
      rawCellA ledgerGapped 2 ≠ CellValue.none ∧
      (add_county_data_to_raw ledgerGapped [recSample]
            (find_next_empty_row ledgerGapped)).1.getD
          (find_next_empty_row ledgerGapped - 2) emptyRawRow =
        rawRowOfRecord (find_next_empty_row ledgerGapped) recSample :=
  ⟨(c10_first_free_row_by_column_a ledgerGapped).1,
   (c10_first_free_row_by_column_a ledgerGapped).2.1 2 (by norm_num)
     (by decide),
   (c10_first_free_row_by_column_a ledgerGapped).2.2 recSample⟩

/- ——————————————————————————— claim C2 ——————————————————————————— -/

lemma std_preserves_fh : ∀ (l : List RawRow) (rowNum i : ℕ),
    (((l.getD i emptyRawRow).f ≠ CellValue.none →
        ((standardizeRawList rowNum l).getD i emptyRawRow).f = (l.getD i emptyRawRow).f) ∧
      ((l.getD i emptyRawRow).h ≠ CellValue.none →
        ((standardizeRawList rowNum l).getD i emptyRawRow).h = (l.getD i emptyRawRow).h)) := by
  intro l
  induction l with
  | nil => intro rowNum i; simp [standardizeRawList]
  | cons r rest ih =>
    intro rowNum i
    by_cases hr : r.a = CellValue.none
    · simp [standardizeRawList, hr]
    · cases i with
      | zero =>
        by_cases hc : r.a.truthy && r.c.truthy
        · constructor
          · intro hf
            simp only [List.getD_cons_zero] at hf
            simp [standardizeRawList, hr, hc, stdRawUpdate, hf]
          · intro hh
            simp only [List.getD_cons_zero] at hh
            simp [standardizeRawList, hr, hc, stdRawUpdate, hh]
        · simp [standardizeRawList, hr, hc]
      | succ j =>
        have := ih (rowNum + 1) j
        simp only [standardizeRawList, hr, if_false, List.getD_cons_succ]
        exact this

lemma add_fh_formula_only : ∀ (recs : List SourceRecord) (l : List RawRow) (start : ℕ),
    2 ≤ start → ∀ i,
    (((add_county_data_to_raw l recs start).1.getD i emptyRawRow).f =
        (l.getD i emptyRawRow).f ∨
      ((add_county_data_to_raw l recs start).1.getD i emptyRawRow).f =
        CellValue.str (fFormula (i + 2))) ∧
    (((add_county_data_to_raw l recs start).1.getD i emptyRawRow).h =
        (l.getD i emptyRawRow).h ∨
      ((add_county_data_to_raw l recs start).1.getD i emptyRawRow).h =
        CellValue.str (hFormula (i + 2))) := by
  intro recs
  induction recs with
  | nil => intro l start h2 i; simp [add_county_data_to_raw]
  | cons rec rest ih =>
    intro l start h2 i
    have step :
        add_county_data_to_raw l (rec :: rest) start =
          add_county_data_to_raw
            (setAt emptyRawRow l (start - 2) (rawRowOfRecord start rec)) rest (start + 1) := rfl
    rw [step]
    have hmain := ih (setAt emptyRawRow l (start - 2) (rawRowOfRecord start rec))
      (start + 1) (by omega) i
    by_cases hi : i = start - 2
    · subst hi
      have hset : (setAt emptyRawRow l (start - 2) (rawRowOfRecord start rec)).getD
          (start - 2) emptyRawRow = rawRowOfRecord start rec := by
        rw [getD_setAt]; simp
      have hstart : start = (start - 2) + 2 := by omega
      constructor
      · rcases hmain.1 with hcase | hcase
        · right
          rw [hcase, hset]
          rw [rawRowOfRecord]
          exact congrArg (fun rn => CellValue.str (fFormula rn)) hstart
        · right; exact hcase
      · rcases hmain.2 with hcase | hcase
        · right
          rw [hcase, hset]
          rw [rawRowOfRecord]
          exact congrArg (fun rn => CellValue.str (hFormula rn)) hstart
        · right; exact hcase
    · have hset : (setAt emptyRawRow l (start - 2) (rawRowOfRecord start rec)).getD
          i emptyRawRow = l.getD i emptyRawRow := by
        rw [getD_setAt]; simp [hi]
      constructor
      · rcases hmain.1 with hcase | hcase
        · left; rw [hcase, hset]
        · right; exact hcase
      · rcases hmain.2 with hcase | hcase
        · left; rw [hcase, hset]
        · right; exact hcase

/-- C2 (counterexample): the appender writes the derived-column formulas
unconditionally into each row it appends.  On a ledger whose first free row
(by column A) holds a number in derived column F, one pipeline run replaces
that non-empty cell with the column-F formula — a derived write into a
non-empty cell. -/
theorem c2_derived_overwrite_cex :
    (wbDerived.raw.getD 0 emptyRawRow).f = CellValue.num 5 ∧
      ((runPipeline wbDerived [Option.some [recSample]]).raw.getD 0 emptyRawRow).f =
        CellValue.str (fFormula 2) ∧
      CellValue.num 5 ≠ CellValue.none := by
  refine ⟨rfl, rfl, fun hcon => CellValue.noConfusion hcon⟩

/-- C2 (amended): `standardize_key_columns` writes the derived F/H formulas
only into currently-empty cells (a non-empty derived cell is preserved), and
the appender never writes a plain numeric literal into F or H — after an
append, each derived cell either kept its old value or holds the
sibling-column formula string; however the appender performs that formula
write unconditionally, so a non-empty derived cell in the append region can
be overwritten (see the counterexample). -/
theorem c2_derived_protection_amended (sheet : List RawRow) (rowNum i : ℕ)
    (recs : List SourceRecord) (start : ℕ) (hstart : 2 ≤ start) :
    ((sheet.getD i emptyRawRow).f ≠ CellValue.none →
      ((standardizeRawList rowNum sheet).getD i emptyRawRow).f = (sheet.getD i emptyRawRow).f) ∧
    ((sheet.getD i emptyRawRow).h ≠ CellValue.none →
      ((standardizeRawList rowNum sheet).getD i emptyRawRow).h = (sheet.getD i emptyRawRow).h) ∧
    (((add_county_data_to_raw sheet recs start).1.getD i emptyRawRow).f =
        (sheet.getD i emptyRawRow).f ∨
      ((add_county_data_to_raw sheet recs start).1.getD i emptyRawRow).f =
        CellValue.str (fFormula (i + 2))) ∧
    (((add_county_data_to_raw sheet recs start).1.getD i emptyRawRow).h =
        (sheet.getD i emptyRawRow).h ∨
      ((add_county_data_to_raw sheet recs start).1.getD i emptyRawRow).h =
        CellValue.str (hFormula (i + 2))) :=
  ⟨(std_preserves_fh sheet rowNum i).1, (std_preserves_fh sheet rowNum i).2,
   (add_fh_formula_only recs sheet start hstart i).1,
   (add_fh_formula_only recs sheet start hstart i).2⟩

/-- Witness for C2 (amended) on the one-row ledger with non-empty derived
cells. -/
theorem c2_derived_protection_amended_witness :
    ((standardizeRawList 2 rawDerivedNonEmpty).getD 0 emptyRawRow).f =
        (rawDerivedNonEmpty.getD 0 emptyRawRow).f ∧
      ((standardizeRawList 2 rawDerivedNonEmpty).getD 0 emptyRawRow).h =
        (rawDerivedNonEmpty.getD 0 emptyRawRow).h ∧
      (((add_county_data_to_raw rawDerivedNonEmpty [recSample] 2).1.getD 0 emptyRawRow).f =
          (rawDerivedNonEmpty.getD 0 emptyRawRow).f ∨
        ((add_county_data_to_raw rawDerivedNonEmpty [recSample] 2).1.getD 0 emptyRawRow).f =
          CellValue.str (fFormula 2)) ∧
      (((add_county_data_to_raw rawDerivedNonEmpty [recSample] 2).1.getD 0 emptyRawRow).h =
          (rawDerivedNonEmpty.getD 0 emptyRawRow).h ∨
        ((add_county_data_to_raw rawDerivedNonEmpty [recSample] 2).1.getD 0 emptyRawRow).h =
          CellValue.str (hFormula 2)) :=
  let t := c2_derived_protection_amended rawDerivedNonEmpty 2 0 [recSample] 2 (by norm_num)
  ⟨t.1 (fun hcon => CellValue.noConfusion hcon),
   t.2.1 (fun hcon => CellValue.noConfusion hcon), t.2.2.1, t.2.2.2⟩

/- ——————————————————————————— claim C7 ——————————————————————————— -/

lemma truthy_ne_none {v : CellValue} (h : v.truthy = true) : v ≠ CellValue.none := by
  intro hv
  subst hv
  simp [CellValue.truthy] at h

lemma lastNonNoneIdx_all : ∀ (C : List CountiesRow), C ≠ [] →
    (∀ c ∈ C, c.a ≠ CellValue.none) →
    lastNonNoneIdx C = Option.some (C.length - 1) := by
  intro C
  induction C with
  | nil => intro hne; exact absurd rfl hne
  | cons c rest ih =>
    intro _ h
    by_cases hrest_nil : rest = []
    · subst hrest_nil
      simp [lastNonNoneIdx, h c (List.mem_cons_self c [])]
    · have hrest := ih hrest_nil (fun x hx => h x (List.mem_cons_of_mem c hx))
      rw [lastNonNoneIdx, hrest]
      have hpos : 0 < rest.length := List.length_pos.mpr hrest_nil
      have harith : rest.length - 1 + 1 = (c :: rest).length - 1 := by
        simp only [List.length_cons]
        omega
      simp [harith]

lemma nextCountiesRow_all (C : List CountiesRow) (h : ∀ c ∈ C, c.a ≠ CellValue.none) :
    nextCountiesRow C = C.length + 2 := by
  cases hC : C with
  | nil => simp [nextCountiesRow]
  | cons c rest =>
    rw [← hC]
    have hne : C ≠ [] := by simp [hC]
    rw [nextCountiesRow, lastNonNoneIdx_all C hne h]
    have hlen : 0 < C.length := by simp [hC]
    simp only [if_neg (by omega : ¬C.length = 0)]
    omega

lemma appendLoop_append : ∀ (rows : List RawRow) (C : List CountiesRow)
    (seen : List (CellValue × CellValue)) (added : ℕ),
    appendLoop C seen (C.length + 2) added rows =
      (C ++ collectNew seen rows, added + (collectNew seen rows).length) := by
  intro rows
  induction rows with
  | nil => intro C seen added; simp [appendLoop, collectNew]
  | cons r rest ih =>
    intro C seen added
    by_cases hc : (r.a.truthy && r.b.truthy && r.c.truthy && !(seen.contains (r.a, r.c))) = true
    · have hidx : C.length + 2 - 2 = C.length := by omega
      have hset : setAt emptyCountiesRow C (C.length + 2 - 2) (newLookupRow r) =
          C ++ [newLookupRow r] := by
        rw [hidx, setAt_length_append]
      have hnext : C.length + 2 + 1 = (C ++ [newLookupRow r]).length + 2 := by simp
      rw [appendLoop, if_pos hc, hset, hnext,
        ih (C ++ [newLookupRow r]) ((r.a, r.c) :: seen) (added + 1)]
      rw [collectNew, if_pos hc]
      simp [List.append_assoc]
      omega
    · rw [appendLoop, if_neg hc, collectNew, if_neg hc]
      exact ih C seen added

lemma append_new_counties_eq (raw : List RawRow) (C : List CountiesRow)
    (h4 : ∀ c ∈ C, c.a ≠ CellValue.none) :
    (append_new_counties raw C).1 =
      C ++ collectNew (existingPairs C) (raw.takeWhile fun r => !(r.a = CellValue.none)) := by
  rw [append_new_counties, nextCountiesRow_all C h4, appendLoop_append]

lemma collectNew_mem : ∀ (rows : List RawRow) (seen : List (CellValue × CellValue))
    (row : CountiesRow), row ∈ collectNew seen rows →
    ∃ r, r ∈ rows ∧ (r.a.truthy && r.b.truthy && r.c.truthy) = true ∧
      row = newLookupRow r := by
  intro rows
  induction rows with
  | nil => intro seen row h; simp [collectNew] at h
  | cons r rest ih =>
    intro seen row h
    by_cases hc : (r.a.truthy && r.b.truthy && r.c.truthy && !(seen.contains (r.a, r.c))) = true
    · rw [collectNew, if_pos hc] at h
      rcases List.mem_cons.mp h with h | h
      · refine ⟨r, List.mem_cons_self r rest, ?_, h⟩
        simp only [Bool.and_eq_true] at hc
        simp [hc.1.1.1, hc.1.1.2, hc.1.2]
      · obtain ⟨r2, hr2, hcond, heq⟩ := ih _ row h
        exact ⟨r2, List.mem_cons_of_mem r hr2, hcond, heq⟩
    · rw [collectNew, if_neg hc] at h
      obtain ⟨r2, hr2, hcond, heq⟩ := ih _ row h
      exact ⟨r2, List.mem_cons_of_mem r hr2, hcond, heq⟩

/-- C7: every lookup row appended to the Counties sheet has its key cell E set
to the plain-text concatenation of its own county cell (D) and year cell (A)
— a string value, not a formula — its (county, year) cells come from a
scanned ledger row, and for any ledger row number whose county and year cells
match, the ledger key formula `=CONCAT(A,C)` evaluates to exactly that
string. -/
theorem c7_lookup_key_matches (raw : List RawRow) (counties : List CountiesRow)
    (h4 : ∀ c ∈ counties, c.a ≠ CellValue.none)
    (row : CountiesRow)
    (hrow : row ∈ (append_new_counties raw counties).1.drop counties.length) :
    row.e = CellValue.str (cellText row.d ++ cellText row.a) ∧
      (row.d, row.a) ∈ (raw.takeWhile fun r => !(r.a = CellValue.none)).map
        (fun r => (r.a, r.c)) ∧
      ∀ rn : ℕ, rawCellA raw rn = row.d → rawCellC raw rn = row.a →
        CellValue.str (concatKeyEval raw rn) = row.e := by
  rw [append_new_counties_eq raw counties h4, List.drop_left] at hrow
  obtain ⟨r, hrmem, _, heq⟩ := collectNew_mem _ _ row hrow
  subst heq
  refine ⟨rfl, ?_, ?_⟩
  · show ((newLookupRow r).d, (newLookupRow r).a) ∈ _
    have hpair : ((newLookupRow r).d, (newLookupRow r).a) = (r.a, r.c) := rfl
    rw [hpair]
    exact List.mem_map_of_mem _ hrmem
  · intro rn hA hC
    show CellValue.str (cellText (rawCellA raw rn) ++ cellText (rawCellC raw rn)) = _
    rw [hA, hC]
    rfl

/-- Witness for C7 at the one-row Burke 2010 ledger appended into an empty
Counties sheet. -/
theorem c7_lookup_key_matches_witness :
    (newLookupRow rawBurkeRow).e =
        CellValue.str (cellText (newLookupRow rawBurkeRow).d ++
          cellText (newLookupRow rawBurkeRow).a) ∧
      ((newLookupRow rawBurkeRow).d, (newLookupRow rawBurkeRow).a) ∈
        (rawBurke.takeWhile fun r => !(r.a = CellValue.none)).map (fun r => (r.a, r.c)) ∧
      CellValue.str (concatKeyEval rawBurke 2) = (newLookupRow rawBurkeRow).e := by
  have h1 : rawBurkeRow.a.truthy = true := by decide
  have h2 : rawBurkeRow.b.truthy = true := by decide
  have h3 : rawBurkeRow.c.truthy = true := by norm_num [rawBurkeRow, CellValue.truthy]
  have hcond : (rawBurkeRow.a.truthy && rawBurkeRow.b.truthy && rawBurkeRow.c.truthy &&
      !(([] : List (CellValue × CellValue)).contains (rawBurkeRow.a, rawBurkeRow.c))) = true := by
    simp [h1, h2, h3]
  have hrow : newLookupRow rawBurkeRow ∈ (append_new_counties rawBurke []).1.drop 0 := by
    have htake : rawBurke.takeWhile (fun r => !(r.a = CellValue.none)) = [rawBurkeRow] := by
      decide
    have hconc : (append_new_counties rawBurke []).1 = [newLookupRow rawBurkeRow] := by
      rw [append_new_counties_eq rawBurke [] (by simp), htake]
      rw [show existingPairs [] = [] from rfl]
      rw [collectNew, if_pos hcond, collectNew]
      simp
    rw [List.drop_zero, hconc]
    exact List.mem_singleton.mpr rfl
  have t := c7_lookup_key_matches rawBurke [] (by simp) (newLookupRow rawBurkeRow) hrow
  exact ⟨t.1, t.2.1, t.2.2 2 rfl rfl⟩

/- ——————————————————————————— claim C3 ——————————————————————————— -/

lemma findAux_all : ∀ (l : List RawRow) (base : ℕ),
    (∀ r ∈ l, r.a ≠ CellValue.none) → findNextEmptyRowAux base l = base + l.length := by
  intro l
  induction l with
  | nil => intro base _; simp [findNextEmptyRowAux]
  | cons r rest ih =>
    intro base h
    rw [findNextEmptyRowAux, if_neg (h r (List.mem_cons_self r rest))]
    rw [ih (base + 1) (fun x hx => h x (List.mem_cons_of_mem r hx))]
    simp [List.length_cons]
    omega

lemma fnr_all (l : List RawRow) (h : ∀ r ∈ l, r.a ≠ CellValue.none) :
    find_next_empty_row l = l.length + 2 := by
  rw [find_next_empty_row, findAux_all l 2 h]
  omega

lemma add_append : ∀ (recs : List SourceRecord) (l : List RawRow) (start : ℕ),
    start = l.length + 2 →
    (add_county_data_to_raw l recs start).1 = l ++ recsRows start recs := by
  intro recs
  induction recs with
  | nil => intro l start _; simp [add_county_data_to_raw, recsRows]
  | cons rec rest ih =>
    intro l start hstart
    have hidx : start - 2 = l.length := by omega
    have hstep :
        add_county_data_to_raw l (rec :: rest) start =
          add_county_data_to_raw
            (setAt emptyRawRow l (start - 2) (rawRowOfRecord start rec)) rest (start + 1) := rfl
    rw [hstep, hidx, setAt_length_append]
    rw [ih (l ++ [rawRowOfRecord start rec]) (start + 1) (by simp; omega)]
    rw [recsRows]
    simp

lemma addAll_single (recs : List SourceRecord) (l : List RawRow) (start : ℕ)
    (hstart : start = l.length + 2) :
    (addAll l [Option.some recs] start).1 = l ++ recsRows start recs := by
  by_cases he : recs.isEmpty
  · have : recs = [] := List.isEmpty_iff.mp he
    subst this
    simp [addAll, recsRows]
  · rw [addAll, if_neg he]
    show (addAll (add_county_data_to_raw l recs start).1 []
      (add_county_data_to_raw l recs start).2).1 = _
    rw [addAll, add_append recs l start hstart]

lemma rawPairs_append (l₁ l₂ : List RawRow) :
    rawPairs (l₁ ++ l₂) = rawPairs l₁ ++ rawPairs l₂ := by
  simp [rawPairs]

lemma rawPairs_recsRows : ∀ (recs : List SourceRecord) (rn : ℕ),
    rawPairs (recsRows rn recs) = recsPairs recs := by
  intro recs
  induction recs with
  | nil => intro rn; simp [recsRows, rawPairs, recsPairs]
  | cons rec rest ih =>
    intro rn
    simp [recsRows, rawPairs, recsPairs, rawRowOfRecord] at *
    exact ih (rn + 1)

lemma recsRows_a_ne : ∀ (recs : List SourceRecord) (rn : ℕ) (r : RawRow),
    r ∈ recsRows rn recs → r.a ≠ CellValue.none := by
  intro recs
  induction recs with
  | nil => intro rn r h; simp [recsRows] at h
  | cons rec rest ih =>
    intro rn r h
    rw [recsRows] at h
    rcases List.mem_cons.mp h with h | h
    · subst h
      simp [rawRowOfRecord]
    · exact ih (rn + 1) r h

lemma eligPairs_append : ∀ (l₁ l₂ : List RawRow),
    eligPairs (l₁ ++ l₂) = eligPairs l₁ ++ eligPairs l₂ := by
  intro l₁ l₂
  induction l₁ with
  | nil => simp [eligPairs]
  | cons r rest ih =>
    rw [List.cons_append, eligPairs, eligPairs]
    by_cases hc : (r.a.truthy && r.b.truthy && r.c.truthy) = true
    · rw [if_pos hc, if_pos hc, ih]
      rfl
    · rw [if_neg hc, if_neg hc, ih]

lemma eligPairs_recsRows : ∀ (recs : List SourceRecord) (rn : ℕ),
    (∀ rec ∈ recs, rec.county ≠ "" ∧ rec.state ≠ "" ∧ rec.year ≠ 0) →
    eligPairs (recsRows rn recs) = recsPairs recs := by
  intro recs
  induction recs with
  | nil => intro rn _; simp [recsRows, eligPairs, recsPairs]
  | cons rec rest ih =>
    intro rn h
    obtain ⟨hcty, hst, hyr⟩ := h rec (List.mem_cons_self rec rest)
    have hcond : ((rawRowOfRecord rn rec).a.truthy && (rawRowOfRecord rn rec).b.truthy &&
        (rawRowOfRecord rn rec).c.truthy) = true := by
      simp [rawRowOfRecord, CellValue.truthy, hcty, hst, hyr]
    rw [recsRows, eligPairs, if_pos hcond,
      ih (rn + 1) (fun x hx => h x (List.mem_cons_of_mem rec hx))]
    simp [recsPairs, rawRowOfRecord]

lemma takeWhile_all (l : List RawRow) (h : ∀ r ∈ l, r.a ≠ CellValue.none) :
    (l.takeWhile fun r => !(r.a = CellValue.none)) = l := by
  induction l with
  | nil => simp
  | cons r rest ih =>
    rw [List.takeWhile_cons]
    have hr : r.a ≠ CellValue.none := h r (List.mem_cons_self r rest)
    have ht := ih (fun x hx => h x (List.mem_cons_of_mem r hx))
    simp [hr, ht]

lemma rawPairs_cons (x : RawRow) (xs : List RawRow) :
    rawPairs (x :: xs) = (x.a, x.c) :: rawPairs xs := rfl

lemma std_rawPairs : ∀ (l : List RawRow) (rowNum : ℕ),
    rawPairs (standardizeRawList rowNum l) = rawPairs l := by
  intro l
  induction l with
  | nil => intro rowNum; simp [standardizeRawList]
  | cons r rest ih =>
    intro rowNum
    by_cases hr : r.a = CellValue.none
    · simp [standardizeRawList, hr]
    · rw [standardizeRawList, if_neg hr]
      by_cases hc : (r.a.truthy && r.c.truthy) = true
      · rw [if_pos hc, rawPairs_cons, rawPairs_cons, ih (rowNum + 1)]
        rfl
      · rw [if_neg hc, rawPairs_cons, rawPairs_cons, ih (rowNum + 1)]

lemma std_all_a : ∀ (l : List RawRow) (rowNum : ℕ),
    (∀ r ∈ l, r.a ≠ CellValue.none) →
    ∀ r ∈ standardizeRawList rowNum l, r.a ≠ CellValue.none := by
  intro l
  induction l with
  | nil => intro rowNum _ r h; simp [standardizeRawList] at h
  | cons x rest ih =>
    intro rowNum h r hr
    rw [standardizeRawList, if_neg (h x (List.mem_cons_self x rest))] at hr
    rcases List.mem_cons.mp hr with hcase | hcase
    · by_cases hc : (x.a.truthy && x.c.truthy) = true
      · rw [if_pos hc] at hcase
        subst hcase
        show (stdRawUpdate rowNum x).a ≠ CellValue.none
        exact h x (List.mem_cons_self x rest)
      · rw [if_neg hc] at hcase
        subst hcase
        exact h _ (List.mem_cons_self _ rest)
    · exact ih (rowNum + 1) (fun y hy => h y (List.mem_cons_of_mem x hy)) r hcase

lemma std_elig : ∀ (l : List RawRow) (rowNum : ℕ),
    eligPairs (standardizeRawList rowNum l) = eligPairs l := by
  intro l
  induction l with
  | nil => intro rowNum; simp [standardizeRawList]
  | cons r rest ih =>
    intro rowNum
    by_cases hr : r.a = CellValue.none
    · simp [standardizeRawList, hr]
    · rw [standardizeRawList, if_neg hr]
      by_cases hc : (r.a.truthy && r.c.truthy) = true
      · rw [if_pos hc]
        show eligPairs (stdRawUpdate rowNum r :: _) = _
        rw [eligPairs, eligPairs]
        have hsame : ((stdRawUpdate rowNum r).a.truthy && (stdRawUpdate rowNum r).b.truthy &&
            (stdRawUpdate rowNum r).c.truthy) = (r.a.truthy && r.b.truthy && r.c.truthy) := rfl
        rw [hsame, ih (rowNum + 1)]
        rfl
      · rw [if_neg hc]
        rw [eligPairs, eligPairs, ih (rowNum + 1)]

lemma cntPair_append (l₁ l₂ : List CountiesRow) (p : CellValue × CellValue) :
    cntPair (l₁ ++ l₂) p = cntPair l₁ p + cntPair l₂ p := by
  simp [cntPair, List.countP_append]

lemma cntPair_cons (c : CountiesRow) (rest : List CountiesRow) (p : CellValue × CellValue) :
    cntPair (c :: rest) p =
      cntPair rest p +
        if (c.d.truthy && c.a.truthy && decide ((c.d, c.a) = p)) = true then 1 else 0 := by
  simp [cntPair, List.countP_cons]

lemma cntPair_stdE : ∀ (C : List CountiesRow) (p : CellValue × CellValue),
    cntPair (standardizeCountiesE C) p = cntPair C p := by
  intro C p
  induction C with
  | nil => rfl
  | cons c rest ih =>
    rw [standardizeCountiesE]
    by_cases hc : (c.d.truthy && c.a.truthy) = true
    · rw [if_pos hc, cntPair_cons, cntPair_cons, ih]
    · rw [if_neg hc, cntPair_cons, cntPair_cons, ih]

lemma existingPairs_stdE : ∀ (C : List CountiesRow),
    existingPairs (standardizeCountiesE C) = existingPairs C := by
  intro C
  induction C with
  | nil => rfl
  | cons c rest ih =>
    rw [standardizeCountiesE]
    by_cases hc : (c.d.truthy && c.a.truthy) = true
    · rw [if_pos hc, existingPairs, existingPairs, ih]
    · rw [if_neg hc, existingPairs, existingPairs, if_neg hc, if_neg hc, ih]

lemma cntPair_restore : ∀ (C : List CountiesRow) (rawMax rowNum : ℕ)
    (p : CellValue × CellValue),
    cntPair (restoreXlookup rawMax rowNum C) p = cntPair C p := by
  intro C
  induction C with
  | nil => intro rawMax rowNum p; rfl
  | cons c rest ih =>
    intro rawMax rowNum p
    rw [restoreXlookup]
    by_cases hc : c.e.truthy = true
    · rw [if_pos hc, cntPair_cons, cntPair_cons, ih]
      rfl
    · rw [if_neg hc, cntPair_cons, cntPair_cons, ih]

lemma stdE_all_a : ∀ (C : List CountiesRow),
    (∀ c ∈ C, c.a ≠ CellValue.none) →
    ∀ c ∈ standardizeCountiesE C, c.a ≠ CellValue.none := by
  intro C
  induction C with
  | nil => intro _ c h; simp [standardizeCountiesE] at h
  | cons x rest ih =>
    intro h c hc
    rw [standardizeCountiesE] at hc
    rcases List.mem_cons.mp hc with hcase | hcase
    · by_cases hx : (x.d.truthy && x.a.truthy) = true
      · rw [if_pos hx] at hcase
        subst hcase
        exact h x (List.mem_cons_self x rest)
      · rw [if_neg hx] at hcase
        subst hcase
        exact h _ (List.mem_cons_self _ rest)
    · exact ih (fun y hy => h y (List.mem_cons_of_mem x hy)) c hcase

lemma restore_all_a : ∀ (C : List CountiesRow) (rawMax rowNum : ℕ),
    (∀ c ∈ C, c.a ≠ CellValue.none) →
    ∀ c ∈ restoreXlookup rawMax rowNum C, c.a ≠ CellValue.none := by
  intro C
  induction C with
  | nil => intro rawMax rowNum _ c h; simp [restoreXlookup] at h
  | cons x rest ih =>
    intro rawMax rowNum h c hc
    rw [restoreXlookup] at hc
    rcases List.mem_cons.mp hc with hcase | hcase
    · by_cases hx : x.e.truthy = true
      · rw [if_pos hx] at hcase
        subst hcase
        exact h x (List.mem_cons_self x rest)
      · rw [if_neg hx] at hcase
        subst hcase
        exact h _ (List.mem_cons_self _ rest)
    · exact ih rawMax (rowNum + 1) (fun y hy => h y (List.mem_cons_of_mem x hy)) c hcase

lemma collectNew_all_a : ∀ (rows : List RawRow) (seen : List (CellValue × CellValue))
    (c : CountiesRow), c ∈ collectNew seen rows → c.a ≠ CellValue.none := by
  intro rows seen c h
  obtain ⟨r, _, hcond, heq⟩ := collectNew_mem rows seen c h
  subst heq
  show r.c ≠ CellValue.none
  simp only [Bool.and_eq_true] at hcond
  exact truthy_ne_none hcond.2

lemma existingPairs_mem : ∀ (C : List CountiesRow) (p : CellValue × CellValue),
    p ∈ existingPairs C ↔ 0 < cntPair C p := by
  intro C p
  induction C with
  | nil => simp [existingPairs, cntPair]
  | cons c rest ih =>
    rw [cntPair_cons]
    by_cases hdc : (c.d.truthy && c.a.truthy) = true
    · rw [existingPairs, if_pos hdc]
      by_cases hp : (c.d, c.a) = p
      · have hpred : (c.d.truthy && c.a.truthy && decide ((c.d, c.a) = p)) = true := by
          rw [hdc]
          simp [hp]
        rw [hpred, if_pos rfl]
        constructor
        · intro _
          omega
        · intro _
          exact List.mem_cons.mpr (Or.inl hp.symm)
      · have hpred : (c.d.truthy && c.a.truthy && decide ((c.d, c.a) = p)) = false := by
          simp [hp]
        rw [hpred]
        simp only [Bool.false_eq_true, if_false, Nat.add_zero]
        rw [List.mem_cons]
        constructor
        · intro hmem
          rcases hmem with hmem | hmem
          · exact absurd hmem.symm hp
          · exact ih.mp hmem
        · intro hcnt
          exact Or.inr (ih.mpr hcnt)
    · have hfalse : (c.d.truthy && c.a.truthy) = false := by
        cases hv : (c.d.truthy && c.a.truthy)
        · rfl
        · exact absurd hv hdc
      have hpred : (c.d.truthy && c.a.truthy && decide ((c.d, c.a) = p)) = false := by
        rw [hfalse, Bool.false_and]
      rw [existingPairs, if_neg hdc, hpred]
      simp only [Bool.false_eq_true, if_false, Nat.add_zero]
      exact ih

lemma cntPair_newLookupRow (r : RawRow) (p : CellValue × CellValue) :
    ((newLookupRow r).d.truthy && (newLookupRow r).a.truthy &&
        decide (((newLookupRow r).d, (newLookupRow r).a) = p)) =
      (r.a.truthy && r.c.truthy && decide ((r.a, r.c) = p)) := rfl

lemma cntPair_collectNew : ∀ (rows : List RawRow) (seen : List (CellValue × CellValue))
    (p : CellValue × CellValue),
    cntPair (collectNew seen rows) p =
      if p ∈ seen then 0 else if p ∈ eligPairs rows then 1 else 0 := by
  intro rows
  induction rows with
  | nil =>
    intro seen p
    by_cases h : p ∈ seen <;> simp [collectNew, cntPair, eligPairs, h]
  | cons r rest ih =>
    intro seen p
    by_cases hc : (r.a.truthy && r.b.truthy && r.c.truthy && !(seen.contains (r.a, r.c))) = true
    · have hc3 : (r.a.truthy && r.b.truthy && r.c.truthy) = true := by
        simp only [Bool.and_eq_true] at hc
        simp [hc.1.1.1, hc.1.1.2, hc.1.2]
      have hseen : (r.a, r.c) ∉ seen := by
        simp only [Bool.and_eq_true, Bool.not_eq_true'] at hc
        intro hmem
        have := hc.2
        simp [hmem] at this
      rw [collectNew, if_pos hc, eligPairs, if_pos hc3, cntPair_cons, cntPair_newLookupRow,
        ih ((r.a, r.c) :: seen) p]
      by_cases hp : (r.a, r.c) = p
      · have hpt : (r.a.truthy && r.c.truthy && decide ((r.a, r.c) = p)) = true := by
          simp only [Bool.and_eq_true] at hc3
          simp [hp, hc3.1.1, hc3.2]
        rw [hpt, if_pos rfl]
        have hpseen : p ∈ (r.a, r.c) :: seen := List.mem_cons.mpr (Or.inl hp.symm)
        rw [if_pos hpseen]
        have hpnotseen : p ∉ seen := fun hmem => hseen (hp ▸ hmem)
        rw [if_neg hpnotseen]
        have hphead : p ∈ (r.a, r.c) :: eligPairs rest := List.mem_cons.mpr (Or.inl hp.symm)
        rw [if_pos hphead]
      · have hpt : (r.a.truthy && r.c.truthy && decide ((r.a, r.c) = p)) = false := by
          simp [hp]
        rw [hpt]
        simp only [Bool.false_eq_true, if_false, Nat.add_zero]
        have hmem1 : (p ∈ (r.a, r.c) :: seen) ↔ (p ∈ seen) := by
          rw [List.mem_cons]
          constructor
          · intro h
            rcases h with h | h
            · exact absurd h.symm hp
            · exact h
          · exact Or.inr
        have hmem2 : (p ∈ (r.a, r.c) :: eligPairs rest) ↔ (p ∈ eligPairs rest) := by
          rw [List.mem_cons]
          constructor
          · intro h
            rcases h with h | h
            · exact absurd h.symm hp
            · exact h
          · exact Or.inr
        by_cases hps : p ∈ seen
        · rw [if_pos (hmem1.mpr hps), if_pos hps]
        · rw [if_neg (fun h => hps (hmem1.mp h)), if_neg hps]
          by_cases hpe : p ∈ eligPairs rest
          · rw [if_pos hpe, if_pos (hmem2.mpr hpe)]
          · rw [if_neg hpe, if_neg (fun h => hpe (hmem2.mp h))]
    · rw [collectNew, if_neg hc, ih seen p]
      by_cases hc3 : (r.a.truthy && r.b.truthy && r.c.truthy) = true
      · have hcontain : (r.a, r.c) ∈ seen := by
          by_contra hnc
          apply hc
          simp [hc3, hnc]
        rw [eligPairs, if_pos hc3]
        by_cases hps : p ∈ seen
        · rw [if_pos hps, if_pos hps]
        · rw [if_neg hps, if_neg hps]
          have hppair : p ≠ (r.a, r.c) := fun h => hps (h ▸ hcontain)
          have hmem2 : (p ∈ (r.a, r.c) :: eligPairs rest) ↔ (p ∈ eligPairs rest) := by
            rw [List.mem_cons]
            constructor
            · intro h
              rcases h with h | h
              · exact absurd h hppair
              · exact h
            · exact Or.inr
          by_cases hpe : p ∈ eligPairs rest
          · rw [if_pos hpe, if_pos (hmem2.mpr hpe)]
          · rw [if_neg hpe, if_neg (fun h => hpe (hmem2.mp h))]
      · rw [eligPairs, if_neg hc3]

lemma runPipeline_step (wb : Workbook) (recs : List SourceRecord)
    (hR : "Raw" ∈ wb.sheetnames) (hC : "Counties" ∈ wb.sheetnames)
    (h1 : ∀ r ∈ wb.raw, r.a ≠ CellValue.none)
    (h4 : ∀ c ∈ wb.counties, c.a ≠ CellValue.none) :
    (runPipeline wb [Option.some recs]).sheetnames = wb.sheetnames ∧
      (runPipeline wb [Option.some recs]).raw =
        standardizeRawList 2 (wb.raw ++ recsRows (wb.raw.length + 2) recs) ∧
      (∀ r ∈ (runPipeline wb [Option.some recs]).raw, r.a ≠ CellValue.none) ∧
      (∀ c ∈ (runPipeline wb [Option.some recs]).counties, c.a ≠ CellValue.none) ∧
      ∀ p, cntPair (runPipeline wb [Option.some recs]).counties p =
        cntPair wb.counties p +
          (if p ∈ existingPairs wb.counties then 0
           else if p ∈ eligPairs (wb.raw ++ recsRows (wb.raw.length + 2) recs) then 1
           else 0) := by
  have hL1 : (addAll wb.raw [Option.some recs] (find_next_empty_row wb.raw)).1 =
      wb.raw ++ recsRows (wb.raw.length + 2) recs := by
    rw [fnr_all wb.raw h1]
    exact addAll_single recs wb.raw _ rfl
  have hLa : ∀ r ∈ wb.raw ++ recsRows (wb.raw.length + 2) recs, r.a ≠ CellValue.none := by
    intro r hr
    rcases List.mem_append.mp hr with h | h
    · exact h1 r h
    · exact recsRows_a_ne recs _ r h
  have hstdLa : ∀ r ∈ standardizeRawList 2 (wb.raw ++ recsRows (wb.raw.length + 2) recs),
      r.a ≠ CellValue.none := std_all_a _ 2 hLa
  have h4s : ∀ c ∈ standardizeCountiesE wb.counties, c.a ≠ CellValue.none :=
    stdE_all_a wb.counties h4
  have happend : (append_new_counties
        (standardizeRawList 2 (wb.raw ++ recsRows (wb.raw.length + 2) recs))
        (standardizeCountiesE wb.counties)).1 =
      standardizeCountiesE wb.counties ++
        collectNew (existingPairs (standardizeCountiesE wb.counties))
          ((standardizeRawList 2 (wb.raw ++ recsRows (wb.raw.length + 2) recs)).takeWhile
            fun r => !(r.a = CellValue.none)) := append_new_counties_eq _ _ h4s
  have htake : ((standardizeRawList 2 (wb.raw ++ recsRows (wb.raw.length + 2) recs)).takeWhile
      fun r => !(r.a = CellValue.none)) =
      standardizeRawList 2 (wb.raw ++ recsRows (wb.raw.length + 2) recs) :=
    takeWhile_all _ hstdLa
  have hrun : runPipeline wb [Option.some recs] =
      { wb with
        raw := standardizeRawList 2 (wb.raw ++ recsRows (wb.raw.length + 2) recs)
        counties := restoreXlookup
          ((standardizeRawList 2 (wb.raw ++ recsRows (wb.raw.length + 2) recs)).length + 1) 2
          ((append_new_counties
              (standardizeRawList 2 (wb.raw ++ recsRows (wb.raw.length + 2) recs))
              (standardizeCountiesE wb.counties)).1) } := by
    simp [runPipeline, hR, hC, hL1]
  refine ⟨by rw [hrun], by rw [hrun], by rw [hrun]; exact hstdLa, ?_, ?_⟩
  · rw [hrun]
    show ∀ c ∈ restoreXlookup _ 2 _, c.a ≠ CellValue.none
    apply restore_all_a
    rw [happend]
    intro c hc
    rcases List.mem_append.mp hc with h | h
    · exact h4s c h
    · exact collectNew_all_a _ _ c h
  · intro p
    rw [hrun]
    show cntPair (restoreXlookup _ 2 _) p = _
    rw [cntPair_restore, happend, htake, cntPair_append, cntPair_stdE,
      cntPair_collectNew, existingPairs_stdE, std_elig]

/-- C3: processing the same extraction result twice appends its ledger rows
twice — the ledger's (county, year) column pairs end as the original pairs
followed by two copies of the extracted pairs — while the Counties lookup
sheet ends with exactly one row per distinct extracted (county, year) pair,
because the lookup append skips pairs already present. -/
theorem c3_ledger_appends_lookup_dedups (wb : Workbook) (recs : List SourceRecord)
    (hR : "Raw" ∈ wb.sheetnames) (hC : "Counties" ∈ wb.sheetnames)
    (h1 : ∀ r ∈ wb.raw, r.a ≠ CellValue.none)
    (h4 : ∀ c ∈ wb.counties, c.a ≠ CellValue.none)
    (h2 : ∀ p, cntPair wb.counties p ≤ 1)
    (h3 : ∀ rec ∈ recs, rec.county ≠ "" ∧ rec.state ≠ "" ∧ rec.year ≠ 0) :
    rawPairs (twoRuns wb recs).raw =
        rawPairs wb.raw ++ recsPairs recs ++ recsPairs recs ∧
      ∀ rec ∈ recs,
        cntPair (twoRuns wb recs).counties
          (CellValue.str rec.county, CellValue.num rec.year) = 1 := by
  obtain ⟨hsn1, hraw1, hallr1, hallc1, hcnt1⟩ := runPipeline_step wb recs hR hC h1 h4
  have hR1 : "Raw" ∈ (runPipeline wb [Option.some recs]).sheetnames := by
    rw [hsn1]; exact hR
  have hC1 : "Counties" ∈ (runPipeline wb [Option.some recs]).sheetnames := by
    rw [hsn1]; exact hC
  obtain ⟨hsn2, hraw2, hallr2, hallc2, hcnt2⟩ :=
    runPipeline_step (runPipeline wb [Option.some recs]) recs hR1 hC1 hallr1 hallc1
  have hpairs1 : rawPairs (runPipeline wb [Option.some recs]).raw =
      rawPairs wb.raw ++ recsPairs recs := by
    rw [hraw1, std_rawPairs, rawPairs_append, rawPairs_recsRows]
  constructor
  · show rawPairs (runPipeline (runPipeline wb [Option.some recs]) [Option.some recs]).raw = _
    rw [hraw2, std_rawPairs, rawPairs_append, rawPairs_recsRows, hpairs1]
  · intro rec hrec
    have hp : (CellValue.str rec.county, CellValue.num rec.year) ∈ recsPairs recs :=
      List.mem_map_of_mem _ hrec
    have hpelig : (CellValue.str rec.county, CellValue.num rec.year) ∈
        eligPairs (wb.raw ++ recsRows (wb.raw.length + 2) recs) := by
      rw [eligPairs_append, eligPairs_recsRows recs _ h3]
      exact List.mem_append_right _ hp
    have hcnt1p := hcnt1 (CellValue.str rec.county, CellValue.num rec.year)
    have hone : cntPair (runPipeline wb [Option.some recs]).counties
        (CellValue.str rec.county, CellValue.num rec.year) = 1 := by
      rcases Nat.eq_zero_or_pos
          (cntPair wb.counties (CellValue.str rec.county, CellValue.num rec.year)) with hz | hpos
      · have hnotin : (CellValue.str rec.county, CellValue.num rec.year) ∉
            existingPairs wb.counties := by
          intro hmem
          rw [existingPairs_mem] at hmem
          omega
        rw [hcnt1p, hz, if_neg hnotin, if_pos hpelig]
      · have heq1 : cntPair wb.counties (CellValue.str rec.county, CellValue.num rec.year) = 1 :=
          le_antisymm (h2 _) hpos
        have hin : (CellValue.str rec.county, CellValue.num rec.year) ∈
            existingPairs wb.counties := (existingPairs_mem _ _).mpr hpos
        rw [hcnt1p, heq1, if_pos hin]
    have hin1 : (CellValue.str rec.county, CellValue.num rec.year) ∈
        existingPairs (runPipeline wb [Option.some recs]).counties :=
      (existingPairs_mem _ _).mpr (by rw [hone]; omega)
    show cntPair (runPipeline (runPipeline wb [Option.some recs]) [Option.some recs]).counties
        _ = 1
    rw [hcnt2 (CellValue.str rec.county, CellValue.num rec.year), hone, if_pos hin1]

/-- Witness for C3: a fresh master workbook processed twice with a one-record
extraction ends with the record's pair twice in the ledger and once in the
lookup sheet. -/
theorem c3_ledger_appends_lookup_dedups_witness :
    rawPairs (twoRuns wbFresh [recSample]).raw =
        rawPairs wbFresh.raw ++ recsPairs [recSample] ++ recsPairs [recSample] ∧
      cntPair (twoRuns wbFresh [recSample]).counties
        (CellValue.str recSample.county, CellValue.num recSample.year) = 1 :=
  let t := c3_ledger_appends_lookup_dedups wbFresh [recSample]
    (by decide) (by decide)
    (by intro r hr; simp [wbFresh] at hr)
    (by intro c hc; simp [wbFresh] at hc)
    (by intro p; simp [wbFresh, cntPair])
    (by
      intro rec hrec
      simp only [List.mem_singleton] at hrec
      subst hrec
      exact ⟨by decide, by decide, by norm_num [recSample]⟩)
  ⟨t.1, t.2 recSample (List.mem_singleton.mpr rfl)⟩
